import Mathlib

/-!
# libtransport session core

A shallow embedding of `src/src/user.cpp` (the per-user session state machine
`Transport::User`) and `src/src/usersreconnecter.cpp` (the paced reconnection
scheduler `Transport::UsersReconnecter`), followed by theorems about them.

Conventions of the embedding.

* Member functions become pure functions that take the object state and
  return the new state together with the list of externally visible calls
  (signals fired, stanzas sent, timer operations, registry requests), oldest
  first.  Logging is left out.
* Collaborators whose code is not part of the two files (capability cache,
  presence oracle, settings, storage, name mapping) are read through an
  environment record that is a parameter of every operation.
* Objects held through `shared_ptr` are embedded as values.
-/

namespace Transport

/-! ## Addresses and stanzas -/

/-- Address `node@domain/resource` (class `Swift::JID`); an absent part is the
empty string. -/
structure JID where
  node : String
  domain : String
  resource : String
deriving DecidableEq, Repr, Inhabited

namespace JID

/-- The resource-stripped form of an address. -/
def toBare (j : JID) : JID := { j with resource := "" }

/-- Textual form of an address. -/
def toString (j : JID) : String :=
  (if j.node = "" then "" else j.node ++ "@") ++ j.domain ++
    (if j.resource = "" then "" else "/" ++ j.resource)

end JID

/-- Presence types of `Swift::Presence::Type`. -/
inductive PresenceType where
  | Available
  | Error
  | Probe
  | Subscribe
  | Subscribed
  | Unavailable
  | Unsubscribe
  | Unsubscribed
deriving DecidableEq, Repr, Inhabited

/-- Availability sub-state of `Swift::StatusShow::Type`. -/
inductive StatusShow where
  | Online
  | Away
  | FFC
  | XA
  | DND
  | None
deriving DecidableEq, Repr, Inhabited

/-- Capability announcement payload (`Swift::CapsInfo`); `hash` is the name
of the hash scheme. -/
structure CapsInfo where
  node : String
  version : String
  hash : String
deriving DecidableEq, Repr, Inhabited

/-- Room-join payload (`Swift::MUCPayload`) with its optional password. -/
structure MUCPayload where
  password : Option String
deriving DecidableEq, Repr, Inhabited

/-- Feature set of a client (`Swift::DiscoInfo`). -/
structure DiscoInfo where
  features : List String
deriving DecidableEq, Repr, Inhabited

/-- Membership test of `Swift::DiscoInfo::hasFeature`. -/
def DiscoInfo.hasFeature (d : DiscoInfo) (feature : String) : Bool :=
  d.features.contains feature

/-- Presence stanza (`Swift::Presence`) with the parts the session reads:
sender, target, type, show, status text and the two payloads it looks for. -/
structure Presence where
  from_ : JID
  to_ : JID
  type : PresenceType
  statusShow : StatusShow
  status : String
  capsInfo : Option CapsInfo
  mucPayload : Option MUCPayload
deriving DecidableEq, Repr, Inhabited

/-- Result of `Swift::Presence::create()`: an available presence without
addresses or payloads. -/
def Presence.create : Presence :=
  { from_ := ⟨"", "", ""⟩, to_ := ⟨"", "", ""⟩, type := .Available,
    statusShow := .Online, status := "", capsInfo := none, mucPayload := none }

/-- Modelled from the spec: the error-class enumeration
`Swift::SpectrumErrorPayload::Error`, whose declaration is not among the
sources.  The two transient classes named in `User::handleDisconnected` are
constructors of their own; every other class is `fatalError code`. -/
inductive SpectrumError where
  | CONNECTION_ERROR_NETWORK_ERROR
  | CONNECTION_ERROR_OTHER_ERROR
  | fatalError (code : Nat)
deriving DecidableEq, Repr, Inhabited

/-- Message stanza built by `User::handleDisconnected`: body, target, sender
and the attached error-class payload. -/
structure Message where
  body : String
  to_ : JID
  from_ : JID
  errorPayload : Option SpectrumError
deriving DecidableEq, Repr, Inhabited

/-! ## Conversations -/

/-- Modelled from the spec: a Conversation (class `Conversation`, not among the
sources) with its legacy-side name, group flag, nickname and participant
addresses.  Participants form a set, kept as a list in order of arrival. -/
structure Conversation where
  legacyName : String
  isMUC : Bool
  nickname : String
  jids : List JID
deriving DecidableEq, Repr, Inhabited

namespace Conversation

/-- Modelled from the spec: `Conversation::addJID`, insertion into the
participant set. -/
def addJID (c : Conversation) (j : JID) : Conversation :=
  if j ∈ c.jids then c else { c with jids := c.jids ++ [j] }

/-- Modelled from the spec: `Conversation::removeJID`, removal from the
participant set. -/
def removeJID (c : Conversation) (j : JID) : Conversation :=
  { c with jids := c.jids.filter (fun k => decide (k ≠ j)) }

/-- Modelled from the spec: `Conversation::setNickname`. -/
def setNickname (c : Conversation) (nick : String) : Conversation :=
  { c with nickname := nick }

/-- Modelled from the spec: `Conversation::clearJIDs`, the conversation is kept
but has no live participant. -/
def clearJIDs (c : Conversation) : Conversation :=
  { c with jids := [] }

end Conversation

/-- Modelled from the spec: the Conversation Manager (class
`ConversationManager`, not among the sources), a mapping from name to
Conversation kept as a list; lookup takes the first entry of a name. -/
structure ConversationManager where
  convs : List Conversation
deriving DecidableEq, Repr, Inhabited

namespace ConversationManager

/-- Modelled from the spec: `ConversationManager::getConversation`, lookup by
name, absent if none. -/
def getConversation (cm : ConversationManager) (name : String) : Option Conversation :=
  cm.convs.find? (fun c => decide (c.legacyName = name))

/-- Modelled from the spec: `ConversationManager::addConversation`, registers a
conversation under its name (keys are unique). -/
def addConversation (cm : ConversationManager) (c : Conversation) : ConversationManager :=
  ⟨cm.convs.filter (fun d => decide (d.legacyName ≠ c.legacyName)) ++ [c]⟩

/-- Modelled from the spec: `ConversationManager::removeConversation`,
unregisters the conversation of that name. -/
def removeConversation (cm : ConversationManager) (c : Conversation) : ConversationManager :=
  ⟨cm.convs.filter (fun d => decide (d.legacyName ≠ c.legacyName))⟩

/-- In-place update of the conversation registered under `name`: the effect of
calling a mutating member through the pointer `getConversation` returned. -/
def modifyConversation (cm : ConversationManager) (name : String)
    (f : Conversation → Conversation) : ConversationManager :=
  ⟨cm.convs.map (fun c => if c.legacyName = name then f c else c)⟩

/-- Modelled from the spec: `ConversationManager::removeJID`, removes the
address from every conversation. -/
def removeJID (cm : ConversationManager) (j : JID) : ConversationManager :=
  ⟨cm.convs.map (fun c => c.removeJID j)⟩

/-- Modelled from the spec: `ConversationManager::clearJIDs`, conversations are
kept but emptied of live participants. -/
def clearJIDs (cm : ConversationManager) : ConversationManager :=
  ⟨cm.convs.map (fun c => c.clearJIDs)⟩

/-- Modelled from the spec: `ConversationManager::resetResources`; per-resource
delivery targets are not part of the data model, so no field changes. -/
def resetResources (cm : ConversationManager) : ConversationManager := cm

/-- Number of registered conversations of that name. -/
def countNamed (cm : ConversationManager) (name : String) : Nat :=
  (cm.convs.filter (fun c => decide (c.legacyName = name))).length

/-- There is exactly one conversation named `name`, and its only participant
is `jid`. -/
def hasOnly (cm : ConversationManager) (name : String) (jid : JID) : Prop :=
  cm.countNamed name = 1 ∧ ∃ c, cm.getConversation name = some c ∧ c.jids = [jid]

end ConversationManager

/-- Modelled from the spec: `Factory::createConversation(manager, room, isMUC)`,
a fresh Conversation of that name without nickname or participants. -/
def createConversation (legacyName : String) (isMUC : Bool) : Conversation :=
  { legacyName := legacyName, isMUC := isMUC, nickname := "", jids := [] }

/-! ## Registry, environment, observable calls -/

/-- Modelled from the spec: the owning registry (class `UserManager`, not among
the sources), the bare identities that currently have a session. -/
structure UserManager where
  users : List String
deriving DecidableEq, Repr, Inhabited

namespace UserManager

/-- Modelled from the spec: `UserManager::getUser`, whether the identity has a
registered session. -/
def getUser (um : UserManager) (barejid : String) : Bool :=
  um.users.contains barejid

/-- Modelled from the spec: `UserManager::removeUser`, removal of the session
of that identity. -/
def removeUser (um : UserManager) (jid : JID) : UserManager :=
  ⟨um.users.filter (fun k => decide (k ≠ jid.toBare.toString))⟩

end UserManager

/-- What a session reads from its collaborators. -/
structure Env where
  /-- Address of the gateway, `m_component->getJID()`. -/
  componentJID : JID
  /-- Value of `m_component->inServerMode()`. -/
  inServerMode : Bool
  /-- Whether the build defines `SUPPORT_LEGACY_CAPS`. -/
  SUPPORT_LEGACY_CAPS : Bool
  /-- Lookup `m_entityCapsManager->getCaps`. -/
  getCaps : JID → Option DiscoInfo
  /-- Lookup `m_presenceOracle->getAllPresence`. -/
  getAllPresence : JID → List Presence
  /-- Lookup `m_presenceOracle->getHighestPriorityPresence`. -/
  getHighestPriorityPresence : JID → Option Presence
  /-- Lookup `User::getUserSetting`. -/
  getUserSetting : String → String
  /-- Mapping `Buddy::JIDToLegacyName`. -/
  JIDToLegacyName : JID → String
  /-- Effect of `ServerStanzaChannel::finishSession` on the registry. -/
  finishSession : JID → UserManager → UserManager

/-- Externally visible calls made by a session. -/
inductive Event where
  | onReadyToConnect
  | onDisconnected
  | onRawPresenceReceived (presence : Presence)
  | onPresenceChanged (presence : Presence)
  | onRoomJoined (who : JID) (room : String) (nickname : String) (password : String)
  | onRoomLeft (room : String)
  | reconnectTimerStart
  | reconnectTimerStop
  | sendPresence (presence : Presence)
  | sendMessage (msg : Message)
  | onUserDestroyed
  | onUserCreated
  | removeUser
  | finishSession (jid : JID) (error : String)
  | sendUnavailablePresences (target : JID)
  | sendCurrentPresences (target : JID)
  | sendParticipants (room : String) (target : JID)
  | sendCachedMessages (room : String) (target : JID)
  | sendCachedChatMessages
  | updateLastActivity
deriving DecidableEq, Repr, Inhabited

/-- Whether the call is a room-joined notification. -/
def Event.isRoomJoined : Event → Bool
  | .onRoomJoined _ _ _ _ => true
  | _ => false

/-- Whether the call hands a raw presence to the backend or is a room-joined
notification: the two calls that make up a room join. -/
def Event.isJoinCall : Event → Bool
  | .onRawPresenceReceived _ => true
  | .onRoomJoined _ _ _ _ => true
  | _ => false

/-- Whether the call forwards a presence-changed notification to the backend. -/
def Event.isPresenceChanged : Event → Bool
  | .onPresenceChanged _ => true
  | _ => false

/-- Whether the call is a room-left notification. -/
def Event.isRoomLeft : Event → Bool
  | .onRoomLeft _ => true
  | _ => false

/-- Whether the call is one that only the bare-identity handling of
`User::handlePresence` (lines 327-413) makes: presence sent to the front end,
the roster manager's presence replays, the cached-message flush, and the
presence-changed notification to the backend. -/
def Event.isBareCall : Event → Bool
  | .sendPresence _ => true
  | .sendUnavailablePresences _ => true
  | .sendCurrentPresences _ => true
  | .sendCachedChatMessages => true
  | .onPresenceChanged _ => true
  | _ => false

/-! ## The session -/

/-- Fields of `Transport::User`. -/
structure User where
  m_jid : JID
  m_connected : Bool
  m_readyForConnect : Bool
  m_ignoreDisconnect : Bool
  m_resources : Int
  m_reconnectCounter : Int
  m_cacheMessages : Bool
  m_joinedRooms : List Presence
  m_legacyCaps : List (JID × Option DiscoInfo)
  m_conversationManager : ConversationManager
deriving DecidableEq, Repr, Inhabited

namespace User

/-- Constructor `User::User` (lines 45-68). -/
def new (jid : JID) : User :=
  { m_jid := jid.toBare
    m_connected := false
    m_readyForConnect := false
    m_ignoreDisconnect := false
    m_resources := 0
    m_reconnectCounter := 0
    m_cacheMessages := false
    m_joinedRooms := []
    m_legacyCaps := []
    m_conversationManager := ⟨[]⟩ }

/-- Member `User::getCaps` (lines 123-134): the capability cache entry, else
(in a build with legacy support) the entry of the fallback map. -/
def getCaps (env : Env) (u : User) (jid : JID) : Option DiscoInfo :=
  match env.getCaps jid with
  | some discoInfo => some discoInfo
  | none =>
    if env.SUPPORT_LEGACY_CAPS then
      match u.m_legacyCaps.lookup jid with
      | some entry => entry
      | none => none
    else none

/-- Member `User::getJIDWithFeature` (lines 85-121); a `continue` of the loop
is `none`. -/
def getJIDWithFeature (env : Env) (u : User) (feature : String) : List JID :=
  (env.getAllPresence u.m_jid).filterMap (fun presence =>
    if presence.type = .Unavailable then none
    else
      match env.getCaps presence.from_ with
      | some discoInfo =>
        if discoInfo.hasFeature feature then some presence.from_ else none
      | none =>
        if env.SUPPORT_LEGACY_CAPS then
          match u.m_legacyCaps.lookup presence.from_ with
          | some (some discoInfo) =>
            if discoInfo.hasFeature feature then some presence.from_ else none
          | some none => none
          | none => none
        else none)

/-- The result of `getJIDWithFeature` in the words of the specification: the
sender addresses, in aggregator order, of the presences of the identity that
are not `Unavailable` and whose capabilities (as `getCaps` returns them: the
capability cache entry, else the legacy fallback entry) include the feature. -/
def getJIDWithFeature_spec (env : Env) (u : User) (feature : String) : List JID :=
  ((env.getAllPresence u.m_jid).filter (fun presence =>
    decide (presence.type ≠ .Unavailable) &&
      (match u.getCaps env presence.from_ with
       | some discoInfo => discoInfo.hasFeature feature
       | none => false))).map (fun presence => presence.from_)

/-- Member `User::sendCurrentPresence` (lines 136-172): the presences sent to
the front end, one per resource that is not unavailable. -/
def sendCurrentPresence (env : Env) (u : User) : List Event :=
  if env.inServerMode then []
  else
    (env.getAllPresence u.m_jid).filterMap (fun presence =>
      if presence.type = .Unavailable then none
      else if u.m_connected then
        match env.getHighestPriorityPresence u.m_jid.toBare with
        | some highest =>
          some (.sendPresence { highest with to_ := presence.from_, from_ := env.componentJID })
        | none =>
          some (.sendPresence { Presence.create with
            to_ := presence.from_, from_ := env.componentJID, type := .Unavailable })
      else
        some (.sendPresence { Presence.create with
          to_ := presence.from_, from_ := env.componentJID, type := .Unavailable,
          status := "Connecting" }))

/-- Member `User::setCacheMessages` (lines 189-194). -/
def setCacheMessages (env : Env) (u : User) (cacheMessages : Bool) : User × List Event :=
  ({ u with m_cacheMessages := cacheMessages },
    if env.inServerMode && !u.m_cacheMessages && cacheMessages then [.sendCachedChatMessages]
    else [])

/-- Member `User::setIgnoreDisconnect` (lines 449-452). -/
def setIgnoreDisconnect (u : User) (ignoreDisconnect : Bool) : User :=
  { u with m_ignoreDisconnect := ignoreDisconnect }

/-- First block of `User::handlePresence` (lines 198-226): the readiness
decision taken while the session is neither connected nor ready. -/
def handlePresence_ready (env : Env) (u : User) (presence : Presence) : User × List Event :=
  if !u.m_connected then
    if u.m_readyForConnect = false then
      match presence.capsInfo with
      | some capsInfo =>
        if capsInfo.hash = "sha-1" then
          if (env.getCaps presence.from_).isSome then
            ({ u with m_readyForConnect := true }, [.onReadyToConnect])
          else (u, [.reconnectTimerStart])
        else if env.inServerMode then
          ({ u with m_readyForConnect := true }, [.onReadyToConnect])
        else (u, [.reconnectTimerStart])
      | none =>
        if env.inServerMode then
          ({ u with m_readyForConnect := true }, [.onReadyToConnect])
        else (u, [.reconnectTimerStart])
    else (u, [])
  else (u, [])

/-- The `Unavailable` branch of `User::handlePresence` for a presence addressed
to a sub-address (lines 231-263). -/
def handlePresence_leave (env : Env) (u : User) (presence : Presence) : User × List Event :=
  let room := env.JIDToLegacyName presence.to_
  match u.m_conversationManager.getConversation room with
  | none => (u, [])
  | some conv0 =>
    let conv := conv0.removeJID presence.from_
    let u1 := { u with m_conversationManager :=
      u.m_conversationManager.modifyConversation room (fun c => c.removeJID presence.from_) }
    if conv.jids ≠ [] then (u1, [])
    else if env.getUserSetting "stay_connected" ≠ "1" then
      ({ u1 with
          m_joinedRooms := u1.m_joinedRooms.eraseP (fun p => decide (p.to_ = presence.to_))
          m_conversationManager := u1.m_conversationManager.removeConversation conv },
        [.onRawPresenceReceived presence, .onRoomLeft room])
    else (u1, [])

/-- Lines 273-276 of `User::handlePresence`: the password of the room-join
payload, empty when there is no payload or no password. -/
def joinPassword (presence : Presence) : String :=
  match presence.mucPayload with
  | some payload => payload.password.getD ""
  | none => ""

/-- Lines 296-304 of `User::handlePresence`: the presence is appended to
`m_joinedRooms` unless an entry with the same target address is there. -/
def recordJoined (joinedRooms : List Presence) (presence : Presence) : List Presence :=
  if joinedRooms.any (fun p => decide (p.to_ = presence.to_)) then joinedRooms
  else joinedRooms ++ [presence]

/-- The room-join branch of `User::handlePresence` (lines 264-322). -/
def handlePresence_join (env : Env) (u : User) (presence : Presence) (forceJoin : Bool) :
    User × List Event :=
  let ev1 : List Event := if !u.m_readyForConnect then [.onReadyToConnect] else []
  let u1 := if !u.m_readyForConnect then { u with m_readyForConnect := true } else u
  let room := env.JIDToLegacyName presence.to_
  let password := joinPassword presence
  match u1.m_conversationManager.getConversation room with
  | some conv =>
    let ev2 : List Event :=
      if presence.from_ ∈ conv.jids then []
      else [.sendParticipants room presence.from_, .sendCachedMessages room presence.from_]
    let u2 :=
      if presence.from_ ∈ conv.jids then u1
      else { u1 with m_conversationManager :=
        u1.m_conversationManager.modifyConversation room (fun c => c.addJID presence.from_) }
    let ev3 : List Event :=
      if forceJoin then
        [.onRawPresenceReceived presence,
         .onRoomJoined presence.from_ room presence.to_.resource password]
      else []
    (u2, ev1 ++ ev2 ++ ev3)
  | none =>
    let u2 := { u1 with m_joinedRooms := recordJoined u1.m_joinedRooms presence }
    if !u2.m_connected then (u2, ev1)
    else
      let cm1 := u2.m_conversationManager.addConversation (createConversation room true)
      let cm2 := cm1.modifyConversation room (fun c => c.setNickname presence.to_.resource)
      let cm3 := cm2.modifyConversation room (fun c => c.addJID presence.from_)
      ({ u2 with m_conversationManager := cm3 },
        ev1 ++ [.onRawPresenceReceived presence,
                .onRoomJoined presence.from_ room presence.to_.resource password])

/-- Lines 327-375 of `User::handlePresence`: resource accounting and the
presence mirrored to the front end. -/
def handlePresence_resources (env : Env) (u : User) (presence : Presence) : User × List Event :=
  let currentResourcesCount : Int := ((env.getAllPresence u.m_jid).length : Int)
  let u1 := { u with m_conversationManager := u.m_conversationManager.resetResources }
  let u2 :=
    if presence.type = .Unavailable then
      { u1 with m_conversationManager := u1.m_conversationManager.removeJID presence.from_ }
    else u1
  let ev1 : List Event :=
    if !env.inServerMode then
      if presence.type = .Unavailable then
        [.sendUnavailablePresences presence.from_,
         .sendPresence { Presence.create with
           to_ := presence.from_, from_ := env.componentJID, type := .Unavailable }]
      else u2.sendCurrentPresence env
    else []
  let ev2 : List Event :=
    if presence.type ≠ .Unavailable ∧ currentResourcesCount ≠ u2.m_resources then
      [.sendCurrentPresences presence.from_]
    else []
  ({ u2 with m_resources := currentResourcesCount }, ev1 ++ ev2)

/-- Lines 377-413 of `User::handlePresence`: the presence forwarded to the
backend once the session is ready. -/
def handlePresence_forward (env : Env) (u : User) : User × List Event :=
  if u.m_readyForConnect then
    match env.getHighestPriorityPresence u.m_jid.toBare with
    | some highest =>
      if highest.type = .Unavailable ∧ env.getUserSetting "stay_connected" = "1" then
        let ev3 : List Event :=
          if env.getUserSetting "xa_when_offline" = "1" then
            [.onRawPresenceReceived { highest with type := .Available, statusShow := .XA }]
          else []
        let u4 := { u with m_resources := 0,
                           m_conversationManager := u.m_conversationManager.clearJIDs }
        let r := u4.setCacheMessages env true
        (r.1, ev3 ++ r.2)
      else
        let r := u.setCacheMessages env false
        (r.1, [.onPresenceChanged highest] ++ r.2)
    | none =>
      if env.getUserSetting "stay_connected" = "1" then
        let u4 := { u with m_resources := 0,
                           m_conversationManager := u.m_conversationManager.clearJIDs }
        u4.setCacheMessages env true
      else
        (u, [.onPresenceChanged { Presence.create with
          to_ := u.m_jid.toBare, from_ := env.componentJID, type := .Unavailable }])
  else (u, [])

/-- The rest of `User::handlePresence` (lines 327-413), taken by a presence for
the bare identity and by a sub-address presence that is neither a leave nor a
room join. -/
def handlePresence_bare (env : Env) (u : User) (presence : Presence) : User × List Event :=
  let r1 := u.handlePresence_resources env presence
  let r2 := r1.1.handlePresence_forward env
  (r2.1, r1.2 ++ r2.2)

/-- The test `isMUC` of `User::handlePresence` (line 230): a room-join payload
is attached or the node of the target starts with `#`. -/
def isMUC (presence : Presence) : Bool :=
  presence.mucPayload.isSome || presence.to_.node.data.head? = some '#'

/-- Member `User::handlePresence` (lines 196-414). -/
def handlePresence (env : Env) (u : User) (presence : Presence) (forceJoin : Bool) :
    User × List Event :=
  let r1 := u.handlePresence_ready env presence
  if presence.to_.node ≠ "" then
    if presence.type = .Unavailable then
      let r2 := r1.1.handlePresence_leave env presence
      (r2.1, r1.2 ++ r2.2)
    else if isMUC presence then
      let r2 := r1.1.handlePresence_join env presence forceJoin
      (r2.1, r1.2 ++ r2.2)
    else
      let r2 := r1.1.handlePresence_bare env presence
      (r2.1, r1.2 ++ [.onRawPresenceReceived presence] ++ r2.2)
  else
    let r2 := r1.1.handlePresence_bare env presence
    (r2.1, r1.2 ++ r2.2)

/-- A presence that `User::handlePresence` treats as a room join: addressed to
a sub-address, not `Unavailable`, and passing the test `isMUC`. -/
def isRoomJoin (presence : Presence) : Prop :=
  presence.to_.node ≠ "" ∧ presence.type ≠ .Unavailable ∧ isMUC presence = true

instance (presence : Presence) : Decidable (isRoomJoin presence) := by
  unfold isRoomJoin
  infer_instance

/-- The room-joined notification fired for a join presence (lines 291, 319). -/
def roomJoinedOf (env : Env) (presence : Presence) : Event :=
  .onRoomJoined presence.from_ (env.JIDToLegacyName presence.to_) presence.to_.resource
    (joinPassword presence)

/-- The loop of `User::setConnected` (lines 183-185): every queued presence is
handled again with a forced join.  A queued join presence never adds to or
removes from the queue when it is handled again, so the loop runs over the
queue as it stands when the loop starts. -/
def replayJoinedRooms (env : Env) (u : User) (ev : List Event) : List Presence → User × List Event
  | [] => (u, ev)
  | presence :: rest =>
    replayJoinedRooms env (u.handlePresence env presence true).1
      (ev ++ (u.handlePresence env presence true).2) rest

/-- Member `User::setConnected` (lines 174-187). -/
def setConnected (env : Env) (u : User) (connected : Bool) : User × List Event :=
  let u1 := { u with m_connected := connected, m_reconnectCounter := 0 }
  let u2 := u1.setIgnoreDisconnect false
  let ev : List Event := [.updateLastActivity] ++ u2.sendCurrentPresence env
  if u2.m_connected then replayJoinedRooms env u2 ev u2.m_joinedRooms
  else (u2, ev)

/-- Member `User::onConnectingTimeout` (lines 435-447). -/
def onConnectingTimeout (env : Env) (u : User) : User × List Event :=
  if u.m_connected || u.m_readyForConnect then (u, [])
  else
    ({ u with m_readyForConnect := true },
      [.reconnectTimerStop, .onReadyToConnect] ++
        (match env.getHighestPriorityPresence u.m_jid.toBare with
         | some highest => [.onPresenceChanged highest]
         | none => []))

/-- Member `User::handleDiscoInfo` (lines 420-433). -/
def handleDiscoInfo (env : Env) (u : User) (jid : JID) (info : Option DiscoInfo) :
    User × List Event :=
  let u1 :=
    if env.SUPPORT_LEGACY_CAPS ∧ (env.getCaps jid).isNone then
      { u with m_legacyCaps := (jid, info) :: u.m_legacyCaps.filter (fun kv => decide (kv.1 ≠ jid)) }
    else u
  u1.onConnectingTimeout env

/-- Member `User::handleDisconnected` (lines 454-504).  The registry is passed
in and returned beside the session. -/
def handleDisconnected (env : Env) (um : UserManager) (u : User) (error : String)
    (e : SpectrumError) : User × UserManager × List Event :=
  if u.m_ignoreDisconnect then (u, um, [])
  else if (e = .CONNECTION_ERROR_OTHER_ERROR ∨ e = .CONNECTION_ERROR_NETWORK_ERROR) ∧
      u.m_reconnectCounter < 3 then
    ({ u with m_reconnectCounter := u.m_reconnectCounter + 1 }, um,
      [.onUserDestroyed, .onUserCreated, .onReadyToConnect])
  else
    let msg : Message :=
      { body := error, to_ := u.m_jid.toBare, from_ := env.componentJID, errorPayload := some e }
    if env.inServerMode then
      let jid := u.m_jid.toBare.toString
      let um1 := env.finishSession u.m_jid um
      if um1.getUser jid then
        (u, um1.removeUser u.m_jid,
          [.onDisconnected, .sendMessage msg, .finishSession u.m_jid error, .removeUser])
      else
        (u, um1, [.onDisconnected, .sendMessage msg, .finishSession u.m_jid error])
    else
      (u, um.removeUser u.m_jid, [.onDisconnected, .sendMessage msg, .removeUser])

end User

/-! ## The reconnection scheduler -/

/-- Stored record of a user (`UserInfo`); the scheduler reads only `id`. -/
structure UserInfo where
  id : Int
  jid : String
deriving DecidableEq, Repr, Inhabited

/-- Modelled from the spec: the Storage Backend (class `StorageBackend`, not
among the sources).  `getUserSetting id variable value` is the value left in
the in-out argument, `value` being the default passed in. -/
structure StorageBackend where
  getUser : String → Option UserInfo
  getUserSetting : Int → String → String → String
  getAllUsers : List String
  getOnlineUsers : List String

/-- What the scheduler reads from its collaborators. -/
structure ReconnecterEnv where
  /-- Value of `CONFIG_BOOL(m_config, "service.reconnect_on_start")`. -/
  reconnect_on_start : Bool
  /-- Pointer `m_storageBackend`, which may be null. -/
  m_storageBackend : Option StorageBackend
  /-- Address of the gateway, `m_component->getJID()`. -/
  componentJID : JID
  /-- Conversion of a string to an address as done by `setTo` and `setFrom`;
  `none` when the conversion throws. -/
  parseJID : String → Option JID

/-- Externally visible calls made by the scheduler. -/
inductive ReconnecterEvent where
  | onUserPresenceReceived (presence : Presence)
  | sendPresence (presence : Presence)
  | nextUserTimerStart
deriving DecidableEq, Repr, Inhabited

/-- Fields of `Transport::UsersReconnecter`; the back of the vector `m_users`
is the end of the list. -/
structure UsersReconnecter where
  m_users : List String
  m_started : Bool
deriving DecidableEq, Repr, Inhabited

/-- Outcome of a scheduler call: new state, calls made, and whether an
exception left the function. -/
structure ReconnecterResult where
  state : UsersReconnecter
  events : List ReconnecterEvent
  raised : Bool
deriving DecidableEq, Repr, Inhabited

namespace UsersReconnecter

/-- Constructor `UsersReconnecter::UsersReconnecter` (lines 39-50). -/
def new : UsersReconnecter := { m_users := [], m_started := false }

/-- Member `UsersReconnecter::reconnectNextUser` (lines 58-104). -/
def reconnectNextUser (env : ReconnecterEnv) (s : UsersReconnecter) : ReconnecterResult :=
  match s.m_users.getLast? with
  | none => ⟨s, [], false⟩
  | some jid =>
    let s1 := { s with m_users := s.m_users.dropLast }
    if env.reconnect_on_start then
      match env.m_storageBackend with
      | none => ⟨s1, [.nextUserTimerStart], false⟩
      | some storageBackend =>
        match storageBackend.getUser jid with
        | none => ⟨s1, [.nextUserTimerStart], false⟩
        | some userInfo =>
          if storageBackend.getUserSetting userInfo.id "stay_connected" "1" = "1" then
            match env.parseJID jid with
            | none => ⟨s1, [], true⟩
            | some sender =>
              ⟨s1, [.onUserPresenceReceived { Presence.create with
                      to_ := env.componentJID, from_ := sender, type := .Available },
                    .nextUserTimerStart], false⟩
          else ⟨s1, [.nextUserTimerStart], false⟩
    else
      match env.parseJID jid with
      | none => ⟨s1, [], false⟩
      | some target =>
        ⟨s1, [.sendPresence { Presence.create with
                to_ := target, from_ := env.componentJID, type := .Probe },
              .nextUserTimerStart], false⟩

/-- Member `UsersReconnecter::handleConnected` (lines 106-120).  The storage
calls append to `m_users`; the result is `none` when the null storage pointer
is dereferenced. -/
def handleConnected (env : ReconnecterEnv) (s : UsersReconnecter) : Option ReconnecterResult :=
  if s.m_started then some ⟨s, [], false⟩
  else
    match env.m_storageBackend with
    | none => none
    | some storageBackend =>
      let s1 := { s with m_started := true }
      let s2 := { s1 with m_users := s1.m_users ++
        (if env.reconnect_on_start then storageBackend.getAllUsers
         else storageBackend.getOnlineUsers) }
      some (reconnectNextUser env s2)

/-- The population `handleConnected` loads (lines 113-117): all users when
reconnect-on-start is enabled, otherwise the users online at last shutdown. -/
def selectedUsers (env : ReconnecterEnv) (storageBackend : StorageBackend) : List String :=
  if env.reconnect_on_start then storageBackend.getAllUsers else storageBackend.getOnlineUsers

/-- The state after `n` ticks of the pacing timer. -/
def ticks (env : ReconnecterEnv) : Nat → UsersReconnecter → UsersReconnecter
  | 0, s => s
  | n + 1, s => ticks env n (reconnectNextUser env s).state

end UsersReconnecter

/-! ## Runs of the session state machine -/

/-- One call of an event entry point of the session, with the environment and
arguments it is made with. -/
inductive Op where
  | handlePresence (env : Env) (presence : Presence) (forceJoin : Bool)
  | handleDiscoInfo (env : Env) (jid : JID) (info : Option DiscoInfo)
  | onConnectingTimeout (env : Env)
  | setConnected (env : Env) (connected : Bool)
  | handleDisconnected (env : Env) (um : UserManager) (error : String) (e : SpectrumError)

namespace User

/-- The session state after one call. -/
def step (u : User) : Op → User
  | .handlePresence env presence forceJoin => (u.handlePresence env presence forceJoin).1
  | .handleDiscoInfo env jid info => (u.handleDiscoInfo env jid info).1
  | .onConnectingTimeout env => (u.onConnectingTimeout env).1
  | .setConnected env connected => (u.setConnected env connected).1
  | .handleDisconnected env um error e => (u.handleDisconnected env um error e).1

/-- The session state after a sequence of calls, first call first. -/
def run (u : User) (ops : List Op) : User := ops.foldl step u

/-- Every `setConnected(true)` of the sequence is made on a session that is
already ready to connect. -/
def connectsWhenReady : User → List Op → Prop
  | _, [] => True
  | u, op :: ops =>
    (match op with
      | .setConnected _ true => u.m_readyForConnect = true
      | _ => True) ∧
    connectsWhenReady (u.step op) ops

end User

/-! ## Sample inputs -/

namespace Sample

/-- A gateway in component mode, without cached capabilities or presences. -/
def env : Env :=
  { componentJID := ⟨"", "gateway.x", ""⟩
    inServerMode := false
    SUPPORT_LEGACY_CAPS := true
    getCaps := fun _ => none
    getAllPresence := fun _ => []
    getHighestPriorityPresence := fun _ => none
    getUserSetting := fun _ => ""
    JIDToLegacyName := fun j => j.node
    finishSession := fun _ um => um }

/-- The session of `c@x` right after construction. -/
def user : User := User.new ⟨"c", "x", "phone"⟩

/-- A registry holding the session of `c@x`. -/
def registry : UserManager := ⟨["c@x"]⟩

/-- The same gateway for a user whose `stay_connected` setting is on. -/
def envSticky : Env :=
  { env with getUserSetting := fun key => if key = "stay_connected" then "1" else "" }

/-- A connected session of `b@x` with the conversation `room1`, joined from the
resource `phone`. -/
def roomUser : User :=
  { User.new ⟨"b", "x", ""⟩ with
    m_connected := true
    m_readyForConnect := true
    m_conversationManager := ⟨[⟨"room1", true, "nick", [⟨"b", "x", "phone"⟩]⟩]⟩ }

/-- A connected and ready session of `b@x` without conversations. -/
def connectedUser : User :=
  { User.new ⟨"b", "x", ""⟩ with m_connected := true, m_readyForConnect := true }

/-- The resource `phone` joins `room1` under the nickname `nick`. -/
def join : Presence :=
  { Presence.create with
    from_ := ⟨"b", "x", "phone"⟩, to_ := ⟨"room1", "gateway.x", "nick"⟩
    mucPayload := some ⟨none⟩ }

/-- The resource `laptop` joins `room1` under the same nickname, so with the
same target address as `join`. -/
def joinLaptop : Presence :=
  { Presence.create with
    from_ := ⟨"b", "x", "laptop"⟩, to_ := ⟨"room1", "gateway.x", "nick"⟩
    mucPayload := some ⟨none⟩ }

/-- The session of `b@x` right after construction. -/
def freshUser : User := User.new ⟨"b", "x", ""⟩

/-- The resource `phone` leaves `room1`. -/
def leave : Presence :=
  { Presence.create with
    from_ := ⟨"b", "x", "phone"⟩, to_ := ⟨"room1", "gateway.x", "nick"⟩
    type := .Unavailable }

/-- A storage with two users, both online at last shutdown. -/
def storage : StorageBackend :=
  { getUser := fun jid => if jid = "a@x" then some ⟨1, "a@x"⟩ else none
    getUserSetting := fun _ _ value => value
    getAllUsers := ["a@x", "b@x"]
    getOnlineUsers := ["a@x", "b@x"] }

/-- A scheduler environment in probe mode over `storage`; an identity parses
unless it is empty. -/
def reconnecterEnv : ReconnecterEnv :=
  { reconnect_on_start := false
    m_storageBackend := some storage
    componentJID := ⟨"", "gateway.x", ""⟩
    parseJID := fun str => if str = "" then none else some ⟨str, "", ""⟩ }

/-- The same gateway in server mode. -/
def envServer : Env := { env with inServerMode := true }

/-- The same gateway with cached capabilities for every address. -/
def envCached : Env := { env with getCaps := fun _ => some ⟨["feature"]⟩ }

/-- An available presence of `c@x/phone` sent to the gateway, without
capability announcement. -/
def available : Presence :=
  { Presence.create with from_ := ⟨"c", "x", "phone"⟩, to_ := ⟨"", "gateway.x", ""⟩ }

/-- The same presence announcing capabilities under the scheme `md5`. -/
def availableMd5 : Presence :=
  { available with capsInfo := some ⟨"client", "v1", "md5"⟩ }

/-- The same presence announcing capabilities under the scheme `sha-1`. -/
def availableSha1 : Presence :=
  { available with capsInfo := some ⟨"client", "v1", "sha-1"⟩ }

/-- The gateway when the aggregator knows the available presence of
`c@x/phone` and the capability cache is empty. -/
def envOnline : Env := { env with getAllPresence := fun _ => [available] }

/-- The same gateway when the capability cache holds an entry for every
address, none with the file-transfer feature. -/
def envOnlineCached : Env :=
  { envOnline with getCaps := fun _ => some ⟨["http://jabber.org/protocol/muc"]⟩ }

/-- The feature set delivered in the test `sendFileSIIBB`. -/
def fileTransfer : DiscoInfo := ⟨["http://jabber.org/protocol/si/profile/file-transfer"]⟩

/-- The sticky gateway of `envSticky` when the aggregator knows no presence of
the user any more. -/
def envStickyOffline : Env :=
  { envSticky with getAllPresence := fun _ => [], getHighestPriorityPresence := fun _ => none }

/-- The resource `phone` of `b@x` goes offline: an `Unavailable` presence for
the bare identity. -/
def unavailable : Presence :=
  { Presence.create with
    from_ := ⟨"b", "x", "phone"⟩, to_ := ⟨"", "gateway.x", ""⟩, type := .Unavailable }

/-- A storage with three records: `a@x`, `b@x` whose `stay_connected` setting
is off, and one stored under the malformed identity `a@@x`. -/
def storageAuto : StorageBackend :=
  { getUser := fun jid =>
      if jid = "a@x" then some ⟨1, jid⟩
      else if jid = "b@x" then some ⟨2, jid⟩
      else if jid = "a@@x" then some ⟨3, jid⟩
      else none
    getUserSetting := fun id _ value => if id = 2 then "0" else value
    getAllUsers := ["a@x", "b@x", "a@@x"]
    getOnlineUsers := ["a@x"] }

/-- A scheduler environment in auto-reconnect mode over `storageAuto`; only
`a@x` and `b@x` convert to an address. -/
def reconnecterEnvAuto : ReconnecterEnv :=
  { reconnect_on_start := true
    m_storageBackend := some storageAuto
    componentJID := ⟨"", "gateway.x", ""⟩
    parseJID := fun str =>
      if str = "a@x" then some ⟨"a", "x", ""⟩
      else if str = "b@x" then some ⟨"b", "x", ""⟩
      else none }

end Sample

/-! ## Theorems -/

namespace Conversation

@[simp] theorem addJID_legacyName (c : Conversation) (j : JID) :
    (c.addJID j).legacyName = c.legacyName := by
  unfold addJID; split <;> rfl

@[simp] theorem removeJID_legacyName (c : Conversation) (j : JID) :
    (c.removeJID j).legacyName = c.legacyName := rfl

@[simp] theorem setNickname_legacyName (c : Conversation) (n : String) :
    (c.setNickname n).legacyName = c.legacyName := rfl

theorem mem_addJID (c : Conversation) (j : JID) : j ∈ (c.addJID j).jids := by
  unfold addJID; split <;> simp_all

theorem addJID_jids_of_not_mem (c : Conversation) (j : JID) (h : j ∉ c.jids) :
    (c.addJID j).jids = c.jids ++ [j] := by
  simp [addJID, h]

theorem addJID_of_mem (c : Conversation) (j : JID) (h : j ∈ c.jids) : c.addJID j = c := by
  simp [addJID, h]

theorem mem_addJID_of_mem (c : Conversation) (j k : JID) (h : j ∈ c.jids) :
    j ∈ (c.addJID k).jids := by
  unfold addJID
  split
  · exact h
  · exact List.mem_append_left _ h

end Conversation

namespace ConversationManager

theorem getConversation_name {cm : ConversationManager} {name : String} {c : Conversation}
    (h : cm.getConversation name = some c) : c.legacyName = name := by
  have := List.find?_some h
  simpa using this

theorem getConversation_eq_none_iff (cm : ConversationManager) (name : String) :
    cm.getConversation name = none ↔ ∀ c ∈ cm.convs, c.legacyName ≠ name := by
  simp [getConversation]

theorem getConversation_modify_same (cm : ConversationManager) (name : String)
    (f : Conversation → Conversation) (hf : ∀ c, (f c).legacyName = c.legacyName) :
    (cm.modifyConversation name f).getConversation name = (cm.getConversation name).map f := by
  obtain ⟨l⟩ := cm
  simp only [modifyConversation, getConversation]
  induction l with
  | nil => rfl
  | cons c l ih =>
    by_cases hc : c.legacyName = name
    · simp [List.find?_cons, hc, hf]
    · simp [List.find?_cons, hc, ih]

theorem getConversation_modify_other (cm : ConversationManager) (name other : String)
    (f : Conversation → Conversation) (hf : ∀ c, (f c).legacyName = c.legacyName)
    (hne : other ≠ name) :
    (cm.modifyConversation name f).getConversation other = cm.getConversation other := by
  obtain ⟨l⟩ := cm
  simp only [modifyConversation, getConversation]
  induction l with
  | nil => rfl
  | cons c l ih =>
    by_cases hc : c.legacyName = name
    · have h1 : ¬ c.legacyName = other := fun h => hne (h.symm.trans hc)
      have h2 : ¬ (f c).legacyName = other := by rw [hf]; exact h1
      have h3 : ¬ name = other := fun h => hne h.symm
      simp [List.find?_cons, hc, h2, h3, ih]
    · simp [List.find?_cons, hc, ih]

theorem getConversation_removeConversation_same (cm : ConversationManager) (c : Conversation) :
    (cm.removeConversation c).getConversation c.legacyName = none := by
  simp [removeConversation, getConversation]

theorem getConversation_addConversation_same (cm : ConversationManager) (c : Conversation) :
    (cm.addConversation c).getConversation c.legacyName = some c := by
  simp only [addConversation, getConversation, List.find?_append]
  have : List.find? (fun d => decide (d.legacyName = c.legacyName))
      (cm.convs.filter (fun d => decide (d.legacyName ≠ c.legacyName))) = none := by
    simp
  simp [this]

theorem getConversation_addConversation_other (cm : ConversationManager) (c : Conversation)
    (other : String) (hne : other ≠ c.legacyName) :
    (cm.addConversation c).getConversation other = cm.getConversation other := by
  have hc : ¬ c.legacyName = other := fun h => hne h.symm
  simp only [addConversation, getConversation, List.find?_append, List.find?_filter]
  have h1 : List.find? (fun d => decide (d.legacyName = other)) [c] = none := by simp [hc]
  rw [h1, Option.or_none]
  congr 1
  funext a
  by_cases ha : a.legacyName = other
  · have : ¬ other = c.legacyName := hne
    simp [ha, this]
  · simp [ha]

theorem countNamed_modifyConversation (cm : ConversationManager) (name other : String)
    (f : Conversation → Conversation) (hf : ∀ c, (f c).legacyName = c.legacyName) :
    (cm.modifyConversation name f).countNamed other = cm.countNamed other := by
  obtain ⟨l⟩ := cm
  simp only [modifyConversation, countNamed]
  induction l with
  | nil => rfl
  | cons c l ih =>
    by_cases hc : c.legacyName = name <;> by_cases ho : c.legacyName = other <;>
      simp_all [List.filter_cons]

theorem countNamed_addConversation_same (cm : ConversationManager) (c : Conversation) :
    (cm.addConversation c).countNamed c.legacyName = 1 := by
  simp [addConversation, countNamed, List.filter_filter]

theorem countNamed_addConversation_other (cm : ConversationManager) (c : Conversation)
    (other : String) (hne : other ≠ c.legacyName) :
    (cm.addConversation c).countNamed other = cm.countNamed other := by
  have hc : ¬ c.legacyName = other := fun h => hne h.symm
  simp only [addConversation, countNamed, List.filter_append, List.filter_filter,
    List.length_append]
  have : List.filter (fun d => decide (d.legacyName = other)) [c] = [] := by simp [hc]
  rw [this]
  simp only [List.length_nil, Nat.add_zero]
  congr 1
  apply List.filter_congr
  intro d _
  by_cases hd : d.legacyName = other <;> simp [hd, hne]

theorem countNamed_eq_zero_of_getConversation_none (cm : ConversationManager) (name : String)
    (h : cm.getConversation name = none) : cm.countNamed name = 0 := by
  simp only [getConversation, List.find?_eq_none] at h
  simp only [countNamed, List.length_eq_zero, List.filter_eq_nil_iff]
  exact h

theorem clearJIDs_removeJID (cm : ConversationManager) (j : JID) :
    (cm.removeJID j).clearJIDs = cm.clearJIDs := by
  simp [clearJIDs, removeJID, Conversation.clearJIDs, Conversation.removeJID]

theorem clearJIDs_jids (cm : ConversationManager) : ∀ c ∈ cm.clearJIDs.convs, c.jids = [] := by
  intro c hc
  simp only [clearJIDs, List.mem_map] at hc
  obtain ⟨d, _, rfl⟩ := hc
  rfl

theorem clearJIDs_names (cm : ConversationManager) :
    cm.clearJIDs.convs.map (fun c => (c.legacyName, c.isMUC, c.nickname)) =
      cm.convs.map (fun c => (c.legacyName, c.isMUC, c.nickname)) := by
  simp [clearJIDs, Conversation.clearJIDs, Function.comp_def]

end ConversationManager

namespace User

theorem handlePresence_ready_of_connected (env : Env) (u : User) (p : Presence)
    (h : u.m_connected = true) : u.handlePresence_ready env p = (u, []) := by
  simp [handlePresence_ready, h]

theorem handlePresence_ready_of_ready (env : Env) (u : User) (p : Presence)
    (h : u.m_readyForConnect = true) : u.handlePresence_ready env p = (u, []) := by
  simp [handlePresence_ready, h]

theorem handlePresence_ready_state (env : Env) (u : User) (p : Presence) :
    ∃ b, (u.handlePresence_ready env p).1 = { u with m_readyForConnect := b } ∧
      (u.m_readyForConnect = true → b = true) := by
  unfold handlePresence_ready
  cases p.capsInfo <;> simp only [] <;> split_ifs <;>
    first
      | exact ⟨true, rfl, fun _ => rfl⟩
      | exact ⟨u.m_readyForConnect, rfl, id⟩

theorem handlePresence_ready_events (env : Env) (u : User) (p : Presence) :
    ∀ ev ∈ (u.handlePresence_ready env p).2,
      ev = .onReadyToConnect ∨ ev = .reconnectTimerStart := by
  unfold handlePresence_ready
  cases p.capsInfo <;> simp only [] <;> split_ifs <;> simp

theorem handlePresence_of_leave (env : Env) (u : User) (p : Presence) (f : Bool)
    (hnode : p.to_.node ≠ "") (htype : p.type = .Unavailable) :
    u.handlePresence env p f =
      (((u.handlePresence_ready env p).1.handlePresence_leave env p).1,
        (u.handlePresence_ready env p).2 ++
          ((u.handlePresence_ready env p).1.handlePresence_leave env p).2) := by
  simp [handlePresence, hnode, htype]

theorem handlePresence_of_isRoomJoin (env : Env) (u : User) (p : Presence) (f : Bool)
    (hp : isRoomJoin p) :
    u.handlePresence env p f =
      (((u.handlePresence_ready env p).1.handlePresence_join env p f).1,
        (u.handlePresence_ready env p).2 ++
          ((u.handlePresence_ready env p).1.handlePresence_join env p f).2) := by
  obtain ⟨h1, h2, h3⟩ := hp
  simp [handlePresence, h1, h2, h3]

theorem handlePresence_leave_conversation (env : Env) (u : User) (p : Presence)
    (hstay : env.getUserSetting "stay_connected" ≠ "1") (c : Conversation)
    (hc : (u.handlePresence_leave env p).1.m_conversationManager.getConversation
      (env.JIDToLegacyName p.to_) = some c) : c.jids ≠ [] := by
  unfold handlePresence_leave at hc
  simp only [] at hc
  cases hg : u.m_conversationManager.getConversation (env.JIDToLegacyName p.to_) with
  | none => simp [hg] at hc
  | some conv0 =>
    have hname := ConversationManager.getConversation_name hg
    simp only [hg] at hc
    by_cases hj : (conv0.removeJID p.from_).jids = []
    · simp only [hj, ne_eq, not_true_eq_false, if_false, hstay, not_false_eq_true, if_true] at hc
      have := ConversationManager.getConversation_removeConversation_same
        (u.m_conversationManager.modifyConversation (env.JIDToLegacyName p.to_)
          (fun c => c.removeJID p.from_)) (conv0.removeJID p.from_)
      rw [Conversation.removeJID_legacyName, hname] at this
      rw [this] at hc
      cases hc
    · simp only [hj, ne_eq, not_false_eq_true, if_true] at hc
      rw [ConversationManager.getConversation_modify_same _ _ _
        (fun c => Conversation.removeJID_legacyName c p.from_), hg] at hc
      simp only [Option.map_some', Option.some.injEq] at hc
      rw [← hc]
      exact hj




theorem handlePresence_ready_frame (env : Env) (u : User) (p : Presence) :
    (u.handlePresence_ready env p).1.m_connected = u.m_connected ∧
    (u.m_readyForConnect = true → (u.handlePresence_ready env p).1.m_readyForConnect = true) := by
  unfold handlePresence_ready
  cases p.capsInfo <;> simp only [] <;> split_ifs <;> simp_all

theorem handlePresence_leave_frame (env : Env) (u : User) (p : Presence) :
    (u.handlePresence_leave env p).1.m_connected = u.m_connected ∧
    (u.handlePresence_leave env p).1.m_readyForConnect = u.m_readyForConnect := by
  unfold handlePresence_leave
  simp only []
  split <;> (try split_ifs) <;> simp_all

theorem handlePresence_join_frame (env : Env) (u : User) (p : Presence) (f : Bool) :
    (u.handlePresence_join env p f).1.m_connected = u.m_connected ∧
    (u.handlePresence_join env p f).1.m_readyForConnect = true := by
  unfold handlePresence_join
  simp only []
  split <;> (try split_ifs) <;> simp_all

theorem handlePresence_resources_frame (env : Env) (u : User) (p : Presence) :
    (u.handlePresence_resources env p).1.m_connected = u.m_connected ∧
    (u.handlePresence_resources env p).1.m_readyForConnect = u.m_readyForConnect := by
  unfold handlePresence_resources
  simp only []
  split_ifs <;> simp

theorem handlePresence_forward_frame (env : Env) (u : User) :
    (u.handlePresence_forward env).1.m_connected = u.m_connected ∧
    (u.handlePresence_forward env).1.m_readyForConnect = u.m_readyForConnect := by
  unfold handlePresence_forward setCacheMessages
  simp only []
  split_ifs <;> (try split) <;> (try split_ifs) <;> simp

theorem handlePresence_bare_frame (env : Env) (u : User) (p : Presence) :
    (u.handlePresence_bare env p).1.m_connected = u.m_connected ∧
    (u.handlePresence_bare env p).1.m_readyForConnect = u.m_readyForConnect := by
  simp [handlePresence_bare, handlePresence_forward_frame, handlePresence_resources_frame]

theorem handlePresence_frame (env : Env) (u : User) (p : Presence) (f : Bool) :
    (u.handlePresence env p f).1.m_connected = u.m_connected ∧
    (u.m_readyForConnect = true → (u.handlePresence env p f).1.m_readyForConnect = true) := by
  have h1 := handlePresence_ready_frame env u p
  unfold handlePresence
  simp only []
  split_ifs <;>
    simp [handlePresence_leave_frame, handlePresence_join_frame, handlePresence_bare_frame, h1.1] <;>
    exact h1.2



theorem onConnectingTimeout_frame (env : Env) (u : User) :
    (u.onConnectingTimeout env).1.m_connected = u.m_connected ∧
    (u.m_readyForConnect = true → (u.onConnectingTimeout env).1.m_readyForConnect = true) := by
  unfold onConnectingTimeout
  split_ifs <;> simp

theorem handleDiscoInfo_frame (env : Env) (u : User) (jid : JID) (info : Option DiscoInfo) :
    (u.handleDiscoInfo env jid info).1.m_connected = u.m_connected ∧
    (u.m_readyForConnect = true → (u.handleDiscoInfo env jid info).1.m_readyForConnect = true) := by
  unfold handleDiscoInfo
  simp only []
  split_ifs
  · exact onConnectingTimeout_frame env _
  · exact onConnectingTimeout_frame env _

theorem handleDisconnected_frame (env : Env) (um : UserManager) (u : User) (error : String)
    (e : SpectrumError) :
    (u.handleDisconnected env um error e).1.m_connected = u.m_connected ∧
    (u.handleDisconnected env um error e).1.m_readyForConnect = u.m_readyForConnect := by
  unfold handleDisconnected
  simp only []
  split_ifs <;> simp

theorem replay_frame (env : Env) (l : List Presence) (u : User) (ev : List Event) :
    (replayJoinedRooms env u ev l).1.m_connected = u.m_connected ∧
    (u.m_readyForConnect = true →
      (replayJoinedRooms env u ev l).1.m_readyForConnect = true) := by
  induction l generalizing u ev with
  | nil => simp [replayJoinedRooms]
  | cons p l ih =>
    have hp := handlePresence_frame env u p true
    have := ih (u.handlePresence env p true).1 (ev ++ (u.handlePresence env p true).2)
    simp only [replayJoinedRooms]
    exact ⟨this.1.trans hp.1, fun h => this.2 (hp.2 h)⟩

theorem setConnected_frame (env : Env) (u : User) (b : Bool) :
    (u.setConnected env b).1.m_connected = b ∧
    (u.m_readyForConnect = true → (u.setConnected env b).1.m_readyForConnect = true) := by
  unfold setConnected setIgnoreDisconnect
  simp only []
  cases b
  · simp
  · simp only [if_true]
    exact replay_frame env u.m_joinedRooms _ _

theorem run_invariant (ops : List Op) (u : User)
    (hinv : u.m_connected = true → u.m_readyForConnect = true)
    (hguard : u.connectsWhenReady ops) :
    (u.run ops).m_connected = true → (u.run ops).m_readyForConnect = true := by
  induction ops generalizing u with
  | nil => exact hinv
  | cons op ops ih =>
    obtain ⟨hop, hrest⟩ := hguard
    have hstep : (u.step op).m_connected = true → (u.step op).m_readyForConnect = true := by
      cases op with
      | handlePresence env p f =>
        have h := handlePresence_frame env u p f
        intro hc
        exact h.2 (hinv (h.1 ▸ hc))
      | handleDiscoInfo env jid info =>
        have h := handleDiscoInfo_frame env u jid info
        intro hc
        exact h.2 (hinv (h.1 ▸ hc))
      | onConnectingTimeout env =>
        have h := onConnectingTimeout_frame env u
        intro hc
        exact h.2 (hinv (h.1 ▸ hc))
      | setConnected env b =>
        have h := setConnected_frame env u b
        intro hc
        cases b with
        | false => simp [step, h.1] at hc
        | true => exact h.2 hop
      | handleDisconnected env um error e =>
        have h := handleDisconnected_frame env um u error e
        intro hc
        simp only [step] at hc ⊢
        rw [h.2]
        exact hinv (h.1 ▸ hc)
    exact ih (u.step op) hstep hrest

theorem recordJoined_any (J : List Presence) (p : Presence) :
    (recordJoined J p).any (fun q => decide (q.to_ = p.to_)) = true := by
  unfold recordJoined
  split
  · assumption
  · simp

theorem recordJoined_idem (J : List Presence) (p : Presence) :
    recordJoined (recordJoined J p) p = recordJoined J p := by
  have h := recordJoined_any J p
  generalize recordJoined J p = K at h
  simp only [recordJoined, h, if_true]

theorem getConversation_created (cm : ConversationManager) (room nick : String) (j : JID) :
    (((cm.addConversation (createConversation room true)).modifyConversation room
        (fun c => c.setNickname nick)).modifyConversation room
        (fun c => c.addJID j)).getConversation room =
      some ⟨room, true, nick, [j]⟩ := by
  rw [ConversationManager.getConversation_modify_same _ _ _
      (fun c => Conversation.addJID_legacyName c j),
    ConversationManager.getConversation_modify_same _ _ _
      (fun c => Conversation.setNickname_legacyName c nick)]
  have := ConversationManager.getConversation_addConversation_same cm (createConversation room true)
  simp only [createConversation] at this ⊢
  rw [this]
  simp [Conversation.setNickname, Conversation.addJID]

theorem handlePresence_join_twice (env : Env) (u : User) (p : Presence) (f : Bool) :
    (u.handlePresence_join env p f).1.handlePresence_join env p false =
      ((u.handlePresence_join env p f).1, []) := by
  have hready := (handlePresence_join_frame env u p f).2
  generalize hs : (u.handlePresence_join env p f).1 = s at hready
  have hlookup :
      (∃ c, s.m_conversationManager.getConversation (env.JIDToLegacyName p.to_) = some c ∧
        p.from_ ∈ c.jids) ∨
      (s.m_conversationManager.getConversation (env.JIDToLegacyName p.to_) = none ∧
        s.m_connected = false ∧
        s.m_joinedRooms.any (fun q => decide (q.to_ = p.to_)) = true) := by
    rw [← hs]
    unfold handlePresence_join
    simp only []
    have hcm : (if (!u.m_readyForConnect) = true then { u with m_readyForConnect := true }
        else u).m_conversationManager = u.m_conversationManager := by
      split <;> rfl
    have hconn : (if (!u.m_readyForConnect) = true then { u with m_readyForConnect := true }
        else u).m_connected = u.m_connected := by
      split <;> rfl
    rw [hcm]
    cases hg : u.m_conversationManager.getConversation (env.JIDToLegacyName p.to_) with
    | some conv =>
      left
      simp only []
      by_cases hin : p.from_ ∈ conv.jids
      · simp only [hin, if_true, hcm]
        exact ⟨conv, hg, hin⟩
      · simp only [hin, if_false]
        refine ⟨conv.addJID p.from_, ?_, Conversation.mem_addJID _ _⟩
        rw [ConversationManager.getConversation_modify_same _ _ _
          (fun c => Conversation.addJID_legacyName c p.from_), hg]
        rfl
    | none =>
      simp only [hconn]
      by_cases hc : u.m_connected = true
      · left
        simp only [hc, Bool.not_true, Bool.false_eq_true, if_false, hcm]
        exact ⟨_, getConversation_created _ _ _ _, by simp⟩
      · right
        have hc2 : u.m_connected = false := by simpa using hc
        simp only [hc2, Bool.not_false, if_true, hcm, hconn]
        exact ⟨hg, trivial, recordJoined_any _ _⟩
  clear hs
  unfold handlePresence_join
  simp only [hready, Bool.not_true, Bool.false_eq_true, if_false]
  rcases hlookup with ⟨c, hc, hin⟩ | ⟨hnone, hconn, hany⟩
  · simp [hc, hin]
  · simp only [hnone, hconn, recordJoined, hany, if_true, Bool.not_false, List.append_nil]
    cases s
    simp_all

theorem sendCurrentPresence_isSendPresence (env : Env) (u : User) :
    ∀ ev ∈ u.sendCurrentPresence env, ∃ q, ev = .sendPresence q := by
  intro ev hev
  unfold sendCurrentPresence at hev
  split at hev
  · simp at hev
  · rw [List.mem_filterMap] at hev
    obtain ⟨presence, _, h⟩ := hev
    split at h
    · cases h
    · split at h
      · split at h
        · exact ⟨_, (Option.some.inj h).symm⟩
        · exact ⟨_, (Option.some.inj h).symm⟩
      · exact ⟨_, (Option.some.inj h).symm⟩

theorem handlePresence_of_connected_join (env : Env) (u : User) (p : Presence) (f : Bool)
    (hc : u.m_connected = true) (hp : isRoomJoin p) :
    u.handlePresence env p f = u.handlePresence_join env p f := by
  rw [handlePresence_of_isRoomJoin env u p f hp, handlePresence_ready_of_connected env u p hc]
  simp

theorem forceReady_eq (u : User) :
    (if (!u.m_readyForConnect) = true then { u with m_readyForConnect := true } else u) =
      { u with m_readyForConnect := true } := by
  cases h : u.m_readyForConnect
  · simp
  · cases u
    simp_all

theorem handlePresence_join_pending (env : Env) (u : User) (p : Presence) (f : Bool)
    (hc : u.m_connected = false)
    (hnone : u.m_conversationManager.getConversation (env.JIDToLegacyName p.to_) = none) :
    (u.handlePresence_join env p f).1 =
      { u with m_readyForConnect := true, m_joinedRooms := recordJoined u.m_joinedRooms p } ∧
    ∀ ev ∈ (u.handlePresence_join env p f).2, ev = .onReadyToConnect := by
  obtain ⟨jid, conn, ready, ign, res, cnt, cache, J, caps, cm⟩ := u
  simp only at hc hnone
  subst hc
  cases ready <;> simp [handlePresence_join, hnone]

theorem handlePresence_pending (env : Env) (u : User) (p : Presence) (f : Bool)
    (hp : isRoomJoin p) (hc : u.m_connected = false)
    (hnone : u.m_conversationManager.getConversation (env.JIDToLegacyName p.to_) = none) :
    (u.handlePresence env p f).1 =
      { u with m_readyForConnect := true, m_joinedRooms := recordJoined u.m_joinedRooms p } ∧
    ∀ ev ∈ (u.handlePresence env p f).2, ev = .onReadyToConnect ∨ ev = .reconnectTimerStart := by
  rw [handlePresence_of_isRoomJoin env u p f hp]
  obtain ⟨b, hb, _⟩ := handlePresence_ready_state env u p
  have hev := handlePresence_ready_events env u p
  generalize (u.handlePresence_ready env p).2 = evs at hev
  rw [hb]
  have h := handlePresence_join_pending env { u with m_readyForConnect := b } p f hc hnone
  refine ⟨by rw [h.1], ?_⟩
  intro ev hmem
  rcases List.mem_append.mp hmem with h1 | h2
  · exact hev ev h1
  · exact Or.inl (h.2 ev h2)


theorem handlePresence_join_connected (env : Env) (u : User) (p : Presence)
    (hc : u.m_connected = true) :
    (u.handlePresence_join env p true).1.m_connected = true ∧
    (u.m_joinedRooms.any (fun q => decide (q.to_ = p.to_)) = true →
      (u.handlePresence_join env p true).1.m_joinedRooms = u.m_joinedRooms) ∧
    (u.handlePresence_join env p true).2.filter Event.isJoinCall =
      [.onRawPresenceReceived p, roomJoinedOf env p] ∧
    (u.handlePresence_join env p true).2.filter Event.isRoomJoined = [roomJoinedOf env p] := by
  obtain ⟨jid, conn, ready, ign, res, cnt, cache, J, caps, cm⟩ := u
  simp only at hc
  subst hc
  cases hg : cm.getConversation (env.JIDToLegacyName p.to_) with
  | none =>
    cases ready <;>
      simp [handlePresence_join, hg, roomJoinedOf, Event.isJoinCall, Event.isRoomJoined,
        recordJoined]
  | some conv =>
    by_cases hin : p.from_ ∈ conv.jids <;> cases ready <;>
      simp [handlePresence_join, hg, hin, roomJoinedOf, Event.isJoinCall, Event.isRoomJoined]

theorem handlePresence_join_connected_cm (env : Env) (u : User) (p : Presence) (f : Bool)
    (hc : u.m_connected = true) (r : String) :
    (env.JIDToLegacyName p.to_ ≠ r →
      (u.handlePresence_join env p f).1.m_conversationManager.getConversation r =
        u.m_conversationManager.getConversation r ∧
      (u.handlePresence_join env p f).1.m_conversationManager.countNamed r =
        u.m_conversationManager.countNamed r) ∧
    (env.JIDToLegacyName p.to_ = r →
      (u.m_conversationManager.getConversation r = none →
        (u.handlePresence_join env p f).1.m_conversationManager.getConversation r =
          some ⟨r, true, p.to_.resource, [p.from_]⟩ ∧
        (u.handlePresence_join env p f).1.m_conversationManager.countNamed r = 1) ∧
      (∀ c, u.m_conversationManager.getConversation r = some c →
        (u.handlePresence_join env p f).1.m_conversationManager.getConversation r =
          some (c.addJID p.from_) ∧
        (u.handlePresence_join env p f).1.m_conversationManager.countNamed r =
          u.m_conversationManager.countNamed r)) := by
  obtain ⟨jid, conn, ready, ign, res, cnt, cache, J, caps, cm⟩ := u
  simp only at hc
  subst hc
  have hadd := fun c => Conversation.addJID_legacyName c p.from_
  have hnick := fun c => Conversation.setNickname_legacyName c p.to_.resource
  refine ⟨fun hne => ?_, fun heq => ⟨fun hnone => ?_, fun c hsome => ?_⟩⟩
  · have hne2 : r ≠ env.JIDToLegacyName p.to_ := fun h => hne h.symm
    cases hg : cm.getConversation (env.JIDToLegacyName p.to_) with
    | none =>
      have h1 : (createConversation (env.JIDToLegacyName p.to_) true).legacyName =
          env.JIDToLegacyName p.to_ := rfl
      cases ready <;>
        simp only [handlePresence_join, hg, Bool.not_true, Bool.not_false, if_true, if_false,
          Bool.false_eq_true] <;>
        rw [ConversationManager.getConversation_modify_other _ _ _ _ hadd hne2,
          ConversationManager.getConversation_modify_other _ _ _ _ hnick hne2,
          ConversationManager.getConversation_addConversation_other _ _ _ (h1 ▸ hne2),
          ConversationManager.countNamed_modifyConversation _ _ _ _ hadd,
          ConversationManager.countNamed_modifyConversation _ _ _ _ hnick,
          ConversationManager.countNamed_addConversation_other _ _ _ (h1 ▸ hne2)] <;>
        exact ⟨rfl, rfl⟩
    | some conv =>
      by_cases hin : p.from_ ∈ conv.jids <;> cases ready <;>
        simp only [handlePresence_join, hg, hin, Bool.not_true, Bool.not_false, if_true,
          if_false, Bool.false_eq_true] <;>
        first
          | exact ⟨trivial, trivial⟩
          | exact ⟨rfl, rfl⟩
          | (rw [ConversationManager.getConversation_modify_other _ _ _ _ hadd hne2,
              ConversationManager.countNamed_modifyConversation _ _ _ _ hadd]
             first
               | exact ⟨trivial, trivial⟩
               | exact ⟨rfl, rfl⟩)
  · subst heq
    have h1 := ConversationManager.countNamed_addConversation_same cm
      (createConversation (env.JIDToLegacyName p.to_) true)
    simp only [createConversation] at h1
    cases ready <;>
      simp only [handlePresence_join, hnone, Bool.not_true, Bool.not_false, if_true, if_false,
        Bool.false_eq_true] <;>
      rw [getConversation_created,
        ConversationManager.countNamed_modifyConversation _ _ _ _ hadd,
        ConversationManager.countNamed_modifyConversation _ _ _ _ hnick] <;>
      exact ⟨rfl, h1⟩
  · subst heq
    by_cases hin : p.from_ ∈ c.jids <;> cases ready <;>
      simp only [handlePresence_join, hsome, hin, Bool.not_true, Bool.not_false, if_true,
        if_false, Bool.false_eq_true] <;>
      first
        | exact ⟨by rw [Conversation.addJID_of_mem c _ hin], trivial⟩
        | (rw [ConversationManager.getConversation_modify_same _ _ _ hadd,
            ConversationManager.countNamed_modifyConversation _ _ _ _ hadd, hsome]
           exact ⟨rfl, rfl⟩)


theorem mem_any_target (J : List Presence) (p : Presence) (h : p ∈ J) :
    J.any (fun q => decide (q.to_ = p.to_)) = true := by
  simp only [List.any_eq_true, decide_eq_true_eq]
  exact ⟨p, h, rfl⟩

theorem replay_joins (env : Env) (J : List Presence) (L : List Presence) (u : User)
    (ev : List Event) (hc : u.m_connected = true) (hJ : u.m_joinedRooms = J)
    (hL : ∀ p ∈ L, isRoomJoin p ∧ J.any (fun q => decide (q.to_ = p.to_)) = true) :
    (replayJoinedRooms env u ev L).1.m_connected = true ∧
    (replayJoinedRooms env u ev L).1.m_joinedRooms = J ∧
    (replayJoinedRooms env u ev L).2.filter Event.isJoinCall =
      ev.filter Event.isJoinCall ++
        L.flatMap (fun p => [.onRawPresenceReceived p, roomJoinedOf env p]) ∧
    (replayJoinedRooms env u ev L).2.filter Event.isRoomJoined =
      ev.filter Event.isRoomJoined ++ L.map (roomJoinedOf env) := by
  induction L generalizing u ev with
  | nil => simp [replayJoinedRooms, hc, hJ]
  | cons p L ih =>
    obtain ⟨hp, hany⟩ := hL p (List.mem_cons_self _ _)
    have hstep := handlePresence_join_connected env u p hc
    rw [← handlePresence_of_connected_join env u p true hc hp] at hstep
    obtain ⟨h1, h2, h3, h4⟩ := hstep
    have hJ2 : (u.handlePresence env p true).1.m_joinedRooms = J := by
      rw [h2 (hJ ▸ hany), hJ]
    have := ih (u.handlePresence env p true).1 (ev ++ (u.handlePresence env p true).2) h1 hJ2
      (fun q hq => hL q (List.mem_cons_of_mem _ hq))
    simp only [replayJoinedRooms]
    refine ⟨this.1, this.2.1, ?_, ?_⟩
    · rw [this.2.2.1, List.filter_append, h3]
      simp
    · rw [this.2.2.2, List.filter_append, h4]
      simp

theorem replay_room (env : Env) (r : String) (a : JID) (L : List Presence) (u : User)
    (ev : List Event) (hc : u.m_connected = true)
    (hL : ∀ q ∈ L, isRoomJoin q ∧ (env.JIDToLegacyName q.to_ = r → q.from_ = a))
    (hinv : u.m_conversationManager.getConversation r = none ∨
      u.m_conversationManager.hasOnly r a) :
    ((replayJoinedRooms env u ev L).1.m_conversationManager.getConversation r = none ∨
      (replayJoinedRooms env u ev L).1.m_conversationManager.hasOnly r a) ∧
    ((u.m_conversationManager.hasOnly r a ∨ ∃ q ∈ L, env.JIDToLegacyName q.to_ = r) →
      (replayJoinedRooms env u ev L).1.m_conversationManager.hasOnly r a) := by
  induction L generalizing u ev with
  | nil =>
    simp only [replayJoinedRooms]
    refine ⟨hinv, fun h => ?_⟩
    rcases h with h | ⟨q, hq, _⟩
    · exact h
    · cases hq
  | cons p L ih =>
    obtain ⟨hp, hfrom⟩ := hL p (List.mem_cons_self _ _)
    have hconn := (handlePresence_join_connected env u p hc).1
    have hcm := handlePresence_join_connected_cm env u p true hc r
    rw [← handlePresence_of_connected_join env u p true hc hp] at hconn hcm
    have hstep :
        ((u.handlePresence env p true).1.m_conversationManager.getConversation r = none ∨
          (u.handlePresence env p true).1.m_conversationManager.hasOnly r a) ∧
        (u.m_conversationManager.hasOnly r a ∨ env.JIDToLegacyName p.to_ = r →
          (u.handlePresence env p true).1.m_conversationManager.hasOnly r a) := by
      by_cases hr : env.JIDToLegacyName p.to_ = r
      · have hgood : (u.handlePresence env p true).1.m_conversationManager.hasOnly r a := by
          have ha := hfrom hr
          rcases hinv with hnone | ⟨hcount, c, hsome, hjids⟩
          · obtain ⟨hget, hcnt⟩ := (hcm.2 hr).1 hnone
            exact ⟨hcnt, _, hget, by rw [ha]⟩
          · obtain ⟨hget, hcnt⟩ := (hcm.2 hr).2 c hsome
            refine ⟨hcnt.trans hcount, _, hget, ?_⟩
            rw [Conversation.addJID_of_mem c _ (by rw [ha, hjids]; simp)]
            exact hjids
        exact ⟨Or.inr hgood, fun _ => hgood⟩
      · obtain ⟨hget, hcnt⟩ := hcm.1 hr
        have hkeep : u.m_conversationManager.hasOnly r a →
            (u.handlePresence env p true).1.m_conversationManager.hasOnly r a := by
          rintro ⟨hcount, c, hsome, hjids⟩
          exact ⟨hcnt.trans hcount, c, hget.trans hsome, hjids⟩
        refine ⟨?_, fun h => h.elim hkeep (fun h => absurd h hr)⟩
        rcases hinv with hnone | hgood
        · exact Or.inl (hget.trans hnone)
        · exact Or.inr (hkeep hgood)
    have := ih (u.handlePresence env p true).1 (ev ++ (u.handlePresence env p true).2) hconn
      (fun q hq => hL q (List.mem_cons_of_mem _ hq)) hstep.1
    simp only [replayJoinedRooms]
    refine ⟨this.1, fun h => this.2 ?_⟩
    rcases h with h | ⟨q, hq, hqr⟩
    · exact Or.inl (hstep.2 (Or.inl h))
    · rcases List.mem_cons.mp hq with rfl | hq2
      · exact Or.inl (hstep.2 (Or.inr hqr))
      · exact Or.inr ⟨q, hq2, hqr⟩


theorem setConnected_true_eq (env : Env) (u : User) :
    u.setConnected env true =
      replayJoinedRooms env
        { u with m_connected := true, m_reconnectCounter := 0, m_ignoreDisconnect := false }
        ([.updateLastActivity] ++ sendCurrentPresence env
          { u with m_connected := true, m_reconnectCounter := 0, m_ignoreDisconnect := false })
        u.m_joinedRooms := by
  simp [setConnected, setIgnoreDisconnect]

theorem mem_recordJoined (J : List Presence) (p q : Presence) (h : q ∈ recordJoined J p) :
    q ∈ J ∨ q = p := by
  unfold recordJoined at h
  split at h
  · exact Or.inl h
  · simpa using h

/-- Removing a session from the registry makes its lookup fail. -/
theorem UserManager_getUser_removeUser (um : UserManager) (jid : JID) :
    (um.removeUser jid).getUser jid.toBare.toString = false := by
  simp [UserManager.getUser, UserManager.removeUser]

/-- The retry path of `handleDisconnected`. -/
theorem handleDisconnected_retry_eq (env : Env) (um : UserManager) (u : User)
    (error : String) (e : SpectrumError)
    (hign : u.m_ignoreDisconnect = false) (hcnt : u.m_reconnectCounter < 3)
    (he : e = .CONNECTION_ERROR_NETWORK_ERROR ∨ e = .CONNECTION_ERROR_OTHER_ERROR) :
    u.handleDisconnected env um error e =
      ({ u with m_reconnectCounter := u.m_reconnectCounter + 1 }, um,
        [.onUserDestroyed, .onUserCreated, .onReadyToConnect]) := by
  have he2 : e = .CONNECTION_ERROR_OTHER_ERROR ∨ e = .CONNECTION_ERROR_NETWORK_ERROR := he.symm
  simp [handleDisconnected, hign, hcnt, he2]

/-- The terminal path of `handleDisconnected`: taken when disconnects are not
ignored and the retry condition (transient class and counter below 3) fails. -/
theorem handleDisconnected_terminal_path (env : Env) (um : UserManager) (u : User)
    (error : String) (e : SpectrumError)
    (hign : u.m_ignoreDisconnect = false)
    (hno : ¬ ((e = .CONNECTION_ERROR_OTHER_ERROR ∨ e = .CONNECTION_ERROR_NETWORK_ERROR) ∧
        u.m_reconnectCounter < 3)) :
    (u.handleDisconnected env um error e).1 = u ∧
    (∃ rest, (u.handleDisconnected env um error e).2.2 =
        .onDisconnected ::
          .sendMessage ⟨error, u.m_jid.toBare, env.componentJID, some e⟩ :: rest ∧
        ∀ ev ∈ rest, ev = .removeUser ∨ ev = .finishSession u.m_jid error) ∧
    (u.handleDisconnected env um error e).2.1.getUser u.m_jid.toBare.toString = false := by
  unfold handleDisconnected
  rw [if_neg (by simp [hign]), if_neg hno]
  by_cases hs : env.inServerMode = true
  · by_cases hg : (env.finishSession u.m_jid um).getUser u.m_jid.toBare.toString = true
    · simp [hs, hg, UserManager_getUser_removeUser]
    · have hg2 : (env.finishSession u.m_jid um).getUser u.m_jid.toBare.toString = false := by
        simpa using hg
      simp [hs, hg2]
  · simp [hs, UserManager_getUser_removeUser]

/-- C1: with `ignoreDisconnect = false` and `reconnectAttempts = 0`, three
disconnects of a transient class in a row keep the session registered, and a fourth
disconnect of any class takes the terminal path: it fires `onDisconnected`, sends
one message carrying the error to the bare identity, and afterwards the registry
holds no session for the identity. -/
theorem handleDisconnected_fourth_is_terminal (env : Env) (um : UserManager) (u : User)
    (r1 r2 r3 r4 : String) (e1 e2 e3 e4 : SpectrumError)
    (hign : u.m_ignoreDisconnect = false) (hcnt : u.m_reconnectCounter = 0)
    (h1 : e1 = .CONNECTION_ERROR_NETWORK_ERROR ∨ e1 = .CONNECTION_ERROR_OTHER_ERROR)
    (h2 : e2 = .CONNECTION_ERROR_NETWORK_ERROR ∨ e2 = .CONNECTION_ERROR_OTHER_ERROR)
    (h3 : e3 = .CONNECTION_ERROR_NETWORK_ERROR ∨ e3 = .CONNECTION_ERROR_OTHER_ERROR) :
    let s1 := u.handleDisconnected env um r1 e1
    let s2 := s1.1.handleDisconnected env s1.2.1 r2 e2
    let s3 := s2.1.handleDisconnected env s2.2.1 r3 e3
    let s4 := s3.1.handleDisconnected env s3.2.1 r4 e4
    (s1.2.1 = um ∧ s2.2.1 = um ∧ s3.2.1 = um) ∧
    (∃ rest, s4.2.2 =
        .onDisconnected ::
          .sendMessage ⟨r4, u.m_jid.toBare, env.componentJID, some e4⟩ :: rest ∧
        ∀ ev ∈ rest, ev = .removeUser ∨ ev = .finishSession u.m_jid r4) ∧
    s4.2.1.getUser u.m_jid.toBare.toString = false := by
  intro s1 s2 s3 s4
  have e1q : s1 = ({ u with m_reconnectCounter := 1 }, um,
      [.onUserDestroyed, .onUserCreated, .onReadyToConnect]) := by
    have h := handleDisconnected_retry_eq env um u r1 e1 hign (by omega) h1
    simpa [hcnt] using h
  have e2q : s2 = ({ u with m_reconnectCounter := 2 }, um,
      [.onUserDestroyed, .onUserCreated, .onReadyToConnect]) := by
    have h := handleDisconnected_retry_eq env um { u with m_reconnectCounter := 1 } r2 e2
      hign (by simp) h2
    simp only [s2, e1q]
    simpa using h
  have e3q : s3 = ({ u with m_reconnectCounter := 3 }, um,
      [.onUserDestroyed, .onUserCreated, .onReadyToConnect]) := by
    have h := handleDisconnected_retry_eq env um { u with m_reconnectCounter := 2 } r3 e3
      hign (by simp) h3
    simp only [s3, e2q]
    simpa using h
  have h4 := handleDisconnected_terminal_path env um { u with m_reconnectCounter := 3 } r4 e4
    hign (by simp)
  refine ⟨⟨by rw [e1q], by rw [e2q], by rw [e3q]⟩, ?_⟩
  simp only [s4, e3q]
  exact h4.2

/-- Witness of C1 on the fresh session of `c@x`: three network errors, then a
fourth one, after which the registry no longer holds `c@x`. -/
theorem handleDisconnected_fourth_is_terminal_witness :
    Sample.user.m_ignoreDisconnect = false ∧ Sample.user.m_reconnectCounter = 0 ∧
    let s1 := Sample.user.handleDisconnected Sample.env Sample.registry "e1"
      .CONNECTION_ERROR_NETWORK_ERROR
    let s2 := s1.1.handleDisconnected Sample.env s1.2.1 "e2" .CONNECTION_ERROR_NETWORK_ERROR
    let s3 := s2.1.handleDisconnected Sample.env s2.2.1 "e3" .CONNECTION_ERROR_NETWORK_ERROR
    let s4 := s3.1.handleDisconnected Sample.env s3.2.1 "e4" .CONNECTION_ERROR_NETWORK_ERROR
    (s1.2.1 = Sample.registry ∧ s2.2.1 = Sample.registry ∧ s3.2.1 = Sample.registry) ∧
    (∃ rest, s4.2.2 =
        .onDisconnected ::
          .sendMessage ⟨"e4", Sample.user.m_jid.toBare, Sample.env.componentJID,
            some .CONNECTION_ERROR_NETWORK_ERROR⟩ :: rest ∧
        ∀ ev ∈ rest, ev = .removeUser ∨ ev = .finishSession Sample.user.m_jid "e4") ∧
    s4.2.1.getUser Sample.user.m_jid.toBare.toString = false :=
  ⟨by decide, by decide,
    handleDisconnected_fourth_is_terminal Sample.env Sample.registry Sample.user
      "e1" "e2" "e3" "e4" _ _ _ _ (by decide) (by decide) (Or.inl rfl) (Or.inl rfl) (Or.inl rfl)⟩

/-- C2: with `ignoreDisconnect = false` and `reconnectAttempts < 3`, a disconnect of
a transient class adds exactly one to the counter, requests `onUserDestroyed` and
then `onUserCreated`, fires ready-to-connect once, and does nothing else: no
`onDisconnected`, no message, no removal, the registry is unchanged. -/
theorem handleDisconnected_transient_retry (env : Env) (um : UserManager) (u : User)
    (error : String) (e : SpectrumError)
    (hign : u.m_ignoreDisconnect = false) (hcnt : u.m_reconnectCounter < 3)
    (he : e = .CONNECTION_ERROR_NETWORK_ERROR ∨ e = .CONNECTION_ERROR_OTHER_ERROR) :
    u.handleDisconnected env um error e =
      ({ u with m_reconnectCounter := u.m_reconnectCounter + 1 }, um,
        [.onUserDestroyed, .onUserCreated, .onReadyToConnect]) :=
  handleDisconnected_retry_eq env um u error e hign hcnt he

/-- Witness of C2 on the fresh session of `c@x` and a network error. -/
theorem handleDisconnected_transient_retry_witness :
    Sample.user.handleDisconnected Sample.env Sample.registry "timeout"
        .CONNECTION_ERROR_NETWORK_ERROR =
      ({ Sample.user with m_reconnectCounter := Sample.user.m_reconnectCounter + 1 },
        Sample.registry, [.onUserDestroyed, .onUserCreated, .onReadyToConnect]) :=
  handleDisconnected_transient_retry Sample.env Sample.registry Sample.user "timeout"
    .CONNECTION_ERROR_NETWORK_ERROR (by decide) (by decide) (Or.inl rfl)

/-- C3 fails as stated: `setConnected(true)` called on a freshly constructed
session gives a connected session that is not ready to connect. -/
theorem connected_without_ready_counterexample :
    (Sample.user.run [.setConnected Sample.env true]).m_connected = true ∧
    (Sample.user.run [.setConnected Sample.env true]).m_readyForConnect = false := by
  decide

/-- C3 (amended): in every state reached from construction by a sequence of
`handlePresence`, `handleDiscoInfo`, `onConnectingTimeout`, `setConnected` and
`handleDisconnected` calls in which `setConnected(true)` is only called on a
session that is already ready to connect, `connected = true` implies
`readyForConnect = true`. -/
theorem connected_implies_ready (jid : JID) (ops : List Op)
    (hguard : (User.new jid).connectsWhenReady ops) :
    ((User.new jid).run ops).m_connected = true →
      ((User.new jid).run ops).m_readyForConnect = true :=
  run_invariant ops (User.new jid) (by simp [User.new]) hguard

/-- Witness of C3 (amended): the capability-wait timeout makes the fresh session
ready, then the backend connects. -/
theorem connected_implies_ready_witness :
    (Sample.user.run [.onConnectingTimeout Sample.env, .setConnected Sample.env true]).m_connected
        = true ∧
      (Sample.user.run
        [.onConnectingTimeout Sample.env, .setConnected Sample.env true]).m_readyForConnect
        = true :=
  ⟨by decide,
    connected_implies_ready ⟨"c", "x", "phone"⟩
      [.onConnectingTimeout Sample.env, .setConnected Sample.env true]
      ⟨trivial, by decide, trivial⟩ (by decide)⟩

/-- C4 fails as stated: with the `stay_connected` setting on, the leave of the only
participant of `room1` keeps the conversation registered with no participant. -/
theorem leave_keeps_empty_room_counterexample :
    Sample.leave.to_.node ≠ "" ∧ Sample.leave.type = .Unavailable ∧
    (Sample.roomUser.handlePresence Sample.envSticky Sample.leave
        false).1.m_conversationManager.getConversation "room1" =
      some ⟨"room1", true, "nick", []⟩ := by
  decide

/-- C4 (amended): when the `stay_connected` setting is not "1", after
`handlePresence` of an `Unavailable` presence addressed to a room the conversation
manager holds no conversation for that room without participants; if removing the
sender leaves no participant, the conversation is removed. -/
theorem leave_never_keeps_empty_room (env : Env) (u : User) (p : Presence) (f : Bool)
    (hnode : p.to_.node ≠ "") (htype : p.type = .Unavailable)
    (hstay : env.getUserSetting "stay_connected" ≠ "1") :
    (∀ c, (u.handlePresence env p f).1.m_conversationManager.getConversation
        (env.JIDToLegacyName p.to_) = some c → c.jids ≠ []) ∧
    (∀ c0, u.m_conversationManager.getConversation (env.JIDToLegacyName p.to_) = some c0 →
      (c0.removeJID p.from_).jids = [] →
      (u.handlePresence env p f).1.m_conversationManager.getConversation
        (env.JIDToLegacyName p.to_) = none) := by
  rw [handlePresence_of_leave env u p f hnode htype]
  refine ⟨fun c hc => handlePresence_leave_conversation env _ p hstay c hc, ?_⟩
  intro c0 hc0 hempty
  obtain ⟨b, hb, _⟩ := handlePresence_ready_state env u p
  have hcm : (u.handlePresence_ready env p).1.m_conversationManager = u.m_conversationManager := by
    rw [hb]
  cases hafter : ((u.handlePresence_ready env p).1.handlePresence_leave env
      p).1.m_conversationManager.getConversation (env.JIDToLegacyName p.to_) with
  | none => rfl
  | some c =>
    exfalso
    have hne := handlePresence_leave_conversation env _ p hstay c hafter
    unfold handlePresence_leave at hafter
    simp only [hcm, hc0, hempty, ne_eq, not_true_eq_false, if_false, hstay, not_false_eq_true,
      if_true] at hafter
    have := ConversationManager.getConversation_removeConversation_same
      (u.m_conversationManager.modifyConversation (env.JIDToLegacyName p.to_)
        (fun c => c.removeJID p.from_)) (c0.removeJID p.from_)
    rw [Conversation.removeJID_legacyName, ConversationManager.getConversation_name hc0] at this
    rw [this] at hafter
    cases hafter

/-- Witness of C4 (amended): without the setting, the leave of the only
participant of `room1` removes the conversation. -/
theorem leave_never_keeps_empty_room_witness :
    (Sample.roomUser.handlePresence Sample.env Sample.leave
        false).1.m_conversationManager.getConversation
      (Sample.env.JIDToLegacyName Sample.leave.to_) = none :=
  (leave_never_keeps_empty_room Sample.env Sample.roomUser Sample.leave false
    (by decide) (by decide) (by decide)).2 ⟨"room1", true, "nick", [⟨"b", "x", "phone"⟩]⟩
    (by decide) (by decide)

/-- C5: room join is idempotent.  For a room-join presence `p` (addressed to a
sub-address, not `Unavailable`, MUC-typed), handling `p` again with
`forceJoin = false` right after handling it once changes nothing in the session
(so neither the participants of the room nor `joinedRooms`) and makes no call at
all (so no room-joined notification). -/
theorem handlePresence_join_idempotent (env : Env) (u : User) (p : Presence) (f : Bool)
    (hp : isRoomJoin p) :
    (u.handlePresence env p f).1.handlePresence env p false =
      ((u.handlePresence env p f).1, []) := by
  rw [handlePresence_of_isRoomJoin env _ p false hp]
  have hfst : (u.handlePresence env p f).1 =
      ((u.handlePresence_ready env p).1.handlePresence_join env p f).1 := by
    rw [handlePresence_of_isRoomJoin env u p f hp]
  rw [hfst]
  have hready := (handlePresence_join_frame env (u.handlePresence_ready env p).1 p f).2
  rw [handlePresence_ready_of_ready env _ p hready]
  simp only [List.nil_append]
  exact handlePresence_join_twice env _ p f

/-- Witness of C5: `b@x/phone` joins `room1` of a connected session without
conversations, twice. -/
theorem handlePresence_join_idempotent_witness :
    isRoomJoin Sample.join ∧
    ((Sample.connectedUser.handlePresence Sample.env Sample.join false).1.handlePresence
        Sample.env Sample.join false =
      ((Sample.connectedUser.handlePresence Sample.env Sample.join false).1, [])) :=
  ⟨by decide,
    handlePresence_join_idempotent Sample.env Sample.connectedUser Sample.join false (by decide)⟩

/-- C7 fails as stated: `b@x/laptop` has a join for `room1` pending, then
`b@x/phone` joins the same target address while `connected = false`; after
`setConnected(true)` the only participant of `room1` is the laptop, not the phone. -/
theorem pending_join_other_sender_counterexample :
    (Sample.freshUser.handlePresence Sample.env Sample.joinLaptop false).1.m_connected = false ∧
    (Sample.freshUser.handlePresence Sample.env Sample.joinLaptop
      false).1.m_conversationManager.getConversation "room1" = none ∧
    isRoomJoin Sample.join ∧
    ((((Sample.freshUser.handlePresence Sample.env Sample.joinLaptop false).1.handlePresence
        Sample.env Sample.join false).1.setConnected Sample.env
        true).1.m_conversationManager.getConversation "room1" =
      some ⟨"room1", true, "nick", [⟨"b", "x", "laptop"⟩]⟩) := by
  decide

/-- C7 (amended): with `connected = false` and no conversation for room `r`,
handling a join presence from `a` to `r` leaves the conversation manager as it
is, fires no room-joined notification and records the presence in `joinedRooms`
once (not at all if an entry with the same target address is there); when no
queued join for `r` comes from an address other than `a`, a following
`setConnected(true)` results in exactly one conversation named `r`, whose only
participant is `a`. -/
theorem pending_join_then_connect (env : Env) (u : User) (p : Presence)
    (hp : isRoomJoin p) (hc : u.m_connected = false)
    (hnone : u.m_conversationManager.getConversation (env.JIDToLegacyName p.to_) = none)
    (hJ : ∀ q ∈ u.m_joinedRooms, isRoomJoin q)
    (hsame : ∀ q ∈ u.m_joinedRooms,
      env.JIDToLegacyName q.to_ = env.JIDToLegacyName p.to_ → q.from_ = p.from_) :
    (u.handlePresence env p false).1.m_conversationManager = u.m_conversationManager ∧
    (∀ ev ∈ (u.handlePresence env p false).2, ev.isRoomJoined = false) ∧
    (u.handlePresence env p false).1.m_joinedRooms =
      (if u.m_joinedRooms.any (fun q => decide (q.to_ = p.to_)) then u.m_joinedRooms
       else u.m_joinedRooms ++ [p]) ∧
    (((u.handlePresence env p false).1.setConnected env true).1.m_conversationManager.hasOnly
      (env.JIDToLegacyName p.to_) p.from_) := by
  obtain ⟨hstate, hev⟩ := handlePresence_pending env u p false hp hc hnone
  refine ⟨by rw [hstate], ?_, by rw [hstate]; rfl, ?_⟩
  · intro ev hmem
    rcases hev ev hmem with rfl | rfl <;> rfl
  · rw [setConnected_true_eq, hstate]
    have hL : ∀ q ∈ recordJoined u.m_joinedRooms p, isRoomJoin q ∧
        (env.JIDToLegacyName q.to_ = env.JIDToLegacyName p.to_ → q.from_ = p.from_) := by
      intro q hq
      rcases mem_recordJoined _ _ _ hq with h | rfl
      · exact ⟨hJ q h, hsame q h⟩
      · exact ⟨hp, fun _ => rfl⟩
    have hex : ∃ q ∈ recordJoined u.m_joinedRooms p,
        env.JIDToLegacyName q.to_ = env.JIDToLegacyName p.to_ := by
      have hany := recordJoined_any u.m_joinedRooms p
      simp only [List.any_eq_true, decide_eq_true_eq] at hany
      obtain ⟨q, hq, hto⟩ := hany
      exact ⟨q, hq, by rw [hto]⟩
    refine (replay_room env (env.JIDToLegacyName p.to_) p.from_
      (recordJoined u.m_joinedRooms p) _ _ ?_ hL ?_).2 (Or.inr hex)
    · rfl
    · exact Or.inl hnone

/-- Witness of C7 (amended), the scenario of the specification: `b@x/phone` joins
`room1` on a fresh session, then the backend connects. -/
theorem pending_join_then_connect_witness :
    ((Sample.freshUser.handlePresence Sample.env Sample.join false).1.setConnected Sample.env
      true).1.m_conversationManager.hasOnly (Sample.env.JIDToLegacyName Sample.join.to_)
      Sample.join.from_ :=
  (pending_join_then_connect Sample.env Sample.freshUser Sample.join
    (by decide) (by decide) (by decide) (by decide) (by decide)).2.2.2

/-- C15: with `ignoreDisconnect = true`, `handleDisconnected` returns the session
and the registry as they are, for every reason and error class, and makes no call
at all. -/
theorem handleDisconnected_ignored (env : Env) (um : UserManager) (u : User)
    (error : String) (e : SpectrumError) (hign : u.m_ignoreDisconnect = true) :
    u.handleDisconnected env um error e = (u, um, []) := by
  simp [handleDisconnected, hign]

/-- Witness of C15: the session of `c@x` during a hand-off between backends. -/
theorem handleDisconnected_ignored_witness :
    ({ Sample.user with m_ignoreDisconnect := true } : User).handleDisconnected Sample.env
        Sample.registry "moving" .CONNECTION_ERROR_NETWORK_ERROR =
      ({ Sample.user with m_ignoreDisconnect := true }, Sample.registry, []) :=
  handleDisconnected_ignored Sample.env Sample.registry _ "moving"
    .CONNECTION_ERROR_NETWORK_ERROR rfl

/-- C16: with `ignoreDisconnect = false` and an error class that is not transient,
whatever the counter, `handleDisconnected` fires `onDisconnected` once, sends one
message (body: the reason, to: the bare identity, from: the gateway, payload: the
error class) and requests removal at most once: always outside server mode, and in
server mode only when the registry still holds the identity after the front-end
session was finished. -/
theorem handleDisconnected_fatal (env : Env) (um : UserManager) (u : User)
    (error : String) (e : SpectrumError) (hign : u.m_ignoreDisconnect = false)
    (hnet : e ≠ .CONNECTION_ERROR_NETWORK_ERROR) (hother : e ≠ .CONNECTION_ERROR_OTHER_ERROR) :
    (u.handleDisconnected env um error e).1 = u ∧
    (u.handleDisconnected env um error e).2.2 =
      [.onDisconnected, .sendMessage ⟨error, u.m_jid.toBare, env.componentJID, some e⟩] ++
        (if env.inServerMode then
          [.finishSession u.m_jid error] ++
            (if (env.finishSession u.m_jid um).getUser u.m_jid.toBare.toString then [.removeUser]
             else [])
         else [.removeUser]) ∧
    (u.handleDisconnected env um error e).2.1 =
      (if env.inServerMode then
        (if (env.finishSession u.m_jid um).getUser u.m_jid.toBare.toString then
          (env.finishSession u.m_jid um).removeUser u.m_jid
         else env.finishSession u.m_jid um)
       else um.removeUser u.m_jid) := by
  unfold handleDisconnected
  rw [if_neg (by simp [hign]), if_neg (by simp [hnet, hother])]
  by_cases hs : env.inServerMode = true
  · by_cases hg : (env.finishSession u.m_jid um).getUser u.m_jid.toBare.toString = true
    · simp [hs, hg]
    · have hg2 : (env.finishSession u.m_jid um).getUser u.m_jid.toBare.toString = false := by
        simpa using hg
      simp [hs, hg2]
  · simp [hs]

/-- Witness of C16: an authentication failure (class 2) reported for `c@x`. -/
theorem handleDisconnected_fatal_witness :
    (Sample.user.handleDisconnected Sample.env Sample.registry "bad password"
        (.fatalError 2)).2.2 =
      [.onDisconnected,
        .sendMessage ⟨"bad password", ⟨"c", "x", ""⟩, ⟨"", "gateway.x", ""⟩, some (.fatalError 2)⟩,
        .removeUser] ∧
    (Sample.user.handleDisconnected Sample.env Sample.registry "bad password"
        (.fatalError 2)).2.1 = ⟨[]⟩ :=
  have h := handleDisconnected_fatal Sample.env Sample.registry Sample.user "bad password"
    (.fatalError 2) (by decide) (by decide) (by decide)
  ⟨h.2.1.trans (by decide), h.2.2.trans (by decide)⟩

/-- C18: `onConnectingTimeout` changes nothing and fires nothing when the session
is connected or ready; otherwise it sets `readyForConnect`, stops the wait timer,
fires ready-to-connect once, and forwards a presence-changed notification exactly
when the aggregator has a highest-priority presence, carrying that presence. -/
theorem onConnectingTimeout_spec (env : Env) (u : User) :
    ((u.m_connected = true ∨ u.m_readyForConnect = true) →
      u.onConnectingTimeout env = (u, [])) ∧
    (u.m_connected = false → u.m_readyForConnect = false →
      (u.onConnectingTimeout env).1 = { u with m_readyForConnect := true } ∧
      (u.onConnectingTimeout env).2.count .onReadyToConnect = 1 ∧
      (∀ highest, env.getHighestPriorityPresence u.m_jid.toBare = some highest →
        (u.onConnectingTimeout env).2 =
          [.reconnectTimerStop, .onReadyToConnect, .onPresenceChanged highest]) ∧
      (env.getHighestPriorityPresence u.m_jid.toBare = none →
        (u.onConnectingTimeout env).2 = [.reconnectTimerStop, .onReadyToConnect])) := by
  refine ⟨fun h => ?_, fun hc hr => ?_⟩
  · rcases h with h | h <;> simp [onConnectingTimeout, h]
  · cases hh : env.getHighestPriorityPresence u.m_jid.toBare <;>
      simp [onConnectingTimeout, hc, hr, hh, List.count_cons]

/-- Witness of C18: a ready session, and the fresh session of `c@x` for which the
aggregator knows no presence. -/
theorem onConnectingTimeout_spec_witness :
    Sample.connectedUser.onConnectingTimeout Sample.env = (Sample.connectedUser, []) ∧
    (Sample.user.onConnectingTimeout Sample.env).2 = [.reconnectTimerStop, .onReadyToConnect] :=
  ⟨(onConnectingTimeout_spec Sample.env Sample.connectedUser).1 (Or.inl rfl),
   ((onConnectingTimeout_spec Sample.env Sample.user).2 rfl rfl).2.2.2 rfl⟩

theorem handlePresence_ready_unsupported (env : Env) (u : User) (p : Presence)
    (hc : u.m_connected = false) (hr : u.m_readyForConnect = false)
    (hcaps : ∀ c, p.capsInfo = some c → c.hash ≠ "sha-1") :
    u.handlePresence_ready env p =
      if env.inServerMode then ({ u with m_readyForConnect := true }, [.onReadyToConnect])
      else (u, [.reconnectTimerStart]) := by
  unfold handlePresence_ready
  cases hp : p.capsInfo with
  | none => simp [hc, hr]
  | some c => simp [hc, hr, hcaps c hp]

theorem handlePresence_ready_supported (env : Env) (u : User) (p : Presence) (c : CapsInfo)
    (hc : u.m_connected = false) (hr : u.m_readyForConnect = false)
    (hp : p.capsInfo = some c) (hhash : c.hash = "sha-1") :
    u.handlePresence_ready env p =
      if (env.getCaps p.from_).isSome then
        ({ u with m_readyForConnect := true }, [.onReadyToConnect])
      else (u, [.reconnectTimerStart]) := by
  unfold handlePresence_ready
  simp [hc, hr, hp, hhash]

theorem mem_ite_list {α : Type} {c : Prop} [Decidable c] {a b : List α} {x : α}
    (h : x ∈ if c then a else b) : x ∈ a ∨ x ∈ b := by
  split at h
  · exact Or.inl h
  · exact Or.inr h

theorem handlePresence_resources_events (env : Env) (u : User) (p : Presence) :
    ∀ ev ∈ (u.handlePresence_resources env p).2,
      ev ≠ .onReadyToConnect ∧ ev ≠ .reconnectTimerStart := by
  intro ev hev
  unfold handlePresence_resources at hev
  simp only [] at hev
  rcases List.mem_append.mp hev with h | h
  · rcases mem_ite_list h with h | h
    · rcases mem_ite_list h with h | h
      · simp only [List.mem_cons, List.mem_singleton, List.not_mem_nil, or_false] at h
        rcases h with rfl | rfl <;> simp
      · obtain ⟨q, rfl⟩ := sendCurrentPresence_isSendPresence env _ ev h
        simp
    · cases h
  · rcases mem_ite_list h with h | h
    · simp only [List.mem_singleton] at h
      subst h
      simp
    · cases h

theorem handlePresence_forward_events (env : Env) (u : User) :
    ∀ ev ∈ (u.handlePresence_forward env).2,
      ev ≠ .onReadyToConnect ∧ ev ≠ .reconnectTimerStart := by
  intro ev hev
  unfold handlePresence_forward setCacheMessages at hev
  simp only [] at hev
  split at hev
  · split at hev
    · split at hev
      · rcases List.mem_append.mp hev with h | h
        · split at h
          · simp only [List.mem_singleton] at h
            subst h
            simp
          · cases h
        · split at h
          · simp only [List.mem_singleton] at h
            subst h
            simp
          · cases h
      · rcases List.mem_append.mp hev with h | h
        · simp only [List.mem_singleton] at h
          subst h
          simp
        · split at h
          · simp only [List.mem_singleton] at h
            subst h
            simp
          · cases h
    · split at hev
      · split at hev
        · simp only [List.mem_singleton] at hev
          subst hev
          simp
        · cases hev
      · simp only [List.mem_singleton] at hev
        subst hev
        simp
  · cases hev

theorem handlePresence_bare_events (env : Env) (u : User) (p : Presence) :
    ∀ ev ∈ (u.handlePresence_bare env p).2,
      ev ≠ .onReadyToConnect ∧ ev ≠ .reconnectTimerStart := by
  intro ev hev
  unfold handlePresence_bare at hev
  rcases List.mem_append.mp hev with h | h
  · exact handlePresence_resources_events env u p ev h
  · exact handlePresence_forward_events env _ ev h

theorem handlePresence_leave_events (env : Env) (u : User) (p : Presence) :
    ∀ ev ∈ (u.handlePresence_leave env p).2,
      ev ≠ .onReadyToConnect ∧ ev ≠ .reconnectTimerStart := by
  intro ev hev
  unfold handlePresence_leave at hev
  simp only [] at hev
  split at hev
  · cases hev
  · split at hev
    · cases hev
    · split at hev
      · simp only [List.mem_cons, List.mem_singleton, List.not_mem_nil, or_false] at hev
        rcases hev with rfl | rfl <;> simp
      · cases hev

theorem handlePresence_join_events (env : Env) (u : User) (p : Presence) (f : Bool) :
    ∀ ev ∈ (u.handlePresence_join env p f).2,
      ev ≠ .reconnectTimerStart ∧ (u.m_readyForConnect = true → ev ≠ .onReadyToConnect) := by
  intro ev hev
  obtain ⟨jid, conn, ready, ign, res, cnt, cache, J, caps, cm⟩ := u
  unfold handlePresence_join at hev
  simp only [] at hev
  cases hg : cm.getConversation (env.JIDToLegacyName p.to_) with
  | none =>
    cases ready <;> cases conn <;> simp [hg] at hev <;>
      (try rcases hev with rfl | rfl | rfl) <;> simp
  | some conv =>
    by_cases hin : p.from_ ∈ conv.jids <;> cases ready <;> cases f <;>
      simp [hg, hin] at hev <;>
      (try rcases hev with rfl | rfl | rfl | rfl | rfl) <;> simp

theorem handlePresence_events_split (env : Env) (u : User) (p : Presence) (f : Bool) :
    ∃ rest, (u.handlePresence env p f).2 = (u.handlePresence_ready env p).2 ++ rest ∧
      (∀ ev ∈ rest, ev ≠ .reconnectTimerStart) ∧
      ((u.handlePresence_ready env p).1.m_readyForConnect = true →
        ∀ ev ∈ rest, ev ≠ .onReadyToConnect) := by
  unfold handlePresence
  simp only []
  split_ifs
  · exact ⟨_, rfl, fun ev h => (handlePresence_leave_events env _ p ev h).2,
      fun _ ev h => (handlePresence_leave_events env _ p ev h).1⟩
  · exact ⟨_, rfl, fun ev h => (handlePresence_join_events env _ p f ev h).1,
      fun hr ev h => (handlePresence_join_events env _ p f ev h).2 hr⟩
  · refine ⟨.onRawPresenceReceived p :: (handlePresence_bare env
      (handlePresence_ready env u p).1 p).2, by simp, ?_, ?_⟩
    · intro ev h
      rcases List.mem_cons.mp h with rfl | h
      · simp
      · exact (handlePresence_bare_events env _ p ev h).2
    · intro _ ev h
      rcases List.mem_cons.mp h with rfl | h
      · simp
      · exact (handlePresence_bare_events env _ p ev h).1
  · exact ⟨_, rfl, fun ev h => (handlePresence_bare_events env _ p ev h).2,
      fun _ ev h => (handlePresence_bare_events env _ p ev h).1⟩

theorem handlePresence_of_bare (env : Env) (u : User) (p : Presence) (f : Bool)
    (hnode : p.to_.node = "") :
    u.handlePresence env p f =
      (((u.handlePresence_ready env p).1.handlePresence_bare env p).1,
        (u.handlePresence_ready env p).2 ++
          ((u.handlePresence_ready env p).1.handlePresence_bare env p).2) := by
  simp [handlePresence, hnode]

theorem handlePresence_ready_field (env : Env) (u : User) (p : Presence) (f : Bool) :
    ((u.handlePresence_ready env p).1.m_readyForConnect = true →
      (u.handlePresence env p f).1.m_readyForConnect = true) ∧
    (p.to_.node = "" → (u.handlePresence env p f).1.m_readyForConnect =
      (u.handlePresence_ready env p).1.m_readyForConnect) := by
  constructor
  · intro h
    unfold handlePresence
    simp only []
    split_ifs <;>
      simp [handlePresence_leave_frame, handlePresence_join_frame, handlePresence_bare_frame, h]
  · intro hnode
    rw [handlePresence_of_bare env u p f hnode]
    exact (handlePresence_bare_frame env _ p).2

theorem count_events (evs rest : List Event) (ev : Event) (h : ∀ x ∈ rest, x ≠ ev) :
    (evs ++ rest).count ev = evs.count ev := by
  rw [List.count_append, List.count_eq_zero.mpr (fun hm => h ev hm rfl), Nat.add_zero]

/-- C12 fails as stated: outside server mode, a presence for the bare identity
without capability announcement leaves the fresh session not ready; the wait timer
is started and ready-to-connect is not fired. -/
theorem unsupported_caps_not_ready_counterexample :
    Sample.user.m_connected = false ∧ Sample.user.m_readyForConnect = false ∧
    Sample.available.to_.node = "" ∧ Sample.available.capsInfo = none ∧
    (Sample.user.handlePresence Sample.env Sample.available false).1.m_readyForConnect = false ∧
    Event.onReadyToConnect ∉ (Sample.user.handlePresence Sample.env Sample.available false).2 ∧
    Event.reconnectTimerStart ∈
      (Sample.user.handlePresence Sample.env Sample.available false).2 := by
  decide

/-- C12 (amended): for a session with `connected = false` and
`readyForConnect = false` and a presence for the bare identity whose capability
announcement is absent or uses a scheme other than `sha-1`: in server mode
`handlePresence` sets `readyForConnect` and fires ready-to-connect once, within
the call; outside server mode it starts the capability-wait timer once, leaves
`readyForConnect = false` and does not fire ready-to-connect. -/
theorem handlePresence_unsupported_caps (env : Env) (u : User) (p : Presence) (f : Bool)
    (hc : u.m_connected = false) (hr : u.m_readyForConnect = false)
    (hnode : p.to_.node = "")
    (hcaps : ∀ c, p.capsInfo = some c → c.hash ≠ "sha-1") :
    (env.inServerMode = true →
      (u.handlePresence env p f).1.m_readyForConnect = true ∧
      (u.handlePresence env p f).2.count .onReadyToConnect = 1 ∧
      Event.reconnectTimerStart ∉ (u.handlePresence env p f).2) ∧
    (env.inServerMode = false →
      (u.handlePresence env p f).1.m_readyForConnect = false ∧
      (u.handlePresence env p f).2.count .reconnectTimerStart = 1 ∧
      Event.onReadyToConnect ∉ (u.handlePresence env p f).2) := by
  have hready := handlePresence_ready_unsupported env u p hc hr hcaps
  have hfield := (handlePresence_ready_field env u p f).2 hnode
  have hev := handlePresence_bare_events env (u.handlePresence_ready env p).1 p
  rw [handlePresence_of_bare env u p f hnode] at hfield ⊢
  constructor
  · intro hs
    rw [hs, if_pos rfl] at hready
    rw [hready] at hfield hev ⊢
    refine ⟨hfield, ?_, ?_⟩
    · rw [count_events _ _ _ (fun x hx => (hev x hx).1)]
      rfl
    · intro hmem
      rcases List.mem_append.mp hmem with h | h
      · simp at h
      · exact (hev _ h).2 rfl
  · intro hs
    rw [hs, if_neg (by simp)] at hready
    rw [hready] at hfield hev ⊢
    refine ⟨hfield.trans hr, ?_, ?_⟩
    · rw [count_events _ _ _ (fun x hx => (hev x hx).2)]
      rfl
    · intro hmem
      rcases List.mem_append.mp hmem with h | h
      · simp at h
      · exact (hev _ h).1 rfl

/-- Witness of C12 (amended): the fresh session of `c@x` receives an available
presence without capability announcement, in server mode and outside it. -/
theorem handlePresence_unsupported_caps_witness :
    (Sample.user.handlePresence Sample.envServer Sample.available false).1.m_readyForConnect
      = true ∧
    (Sample.user.handlePresence Sample.env Sample.available false).1.m_readyForConnect
      = false :=
  ⟨((handlePresence_unsupported_caps Sample.envServer Sample.user Sample.available false
      (by decide) (by decide) (by decide) (by decide)).1 (by decide)).1,
   ((handlePresence_unsupported_caps Sample.env Sample.user Sample.available false
      (by decide) (by decide) (by decide) (by decide)).2 (by decide)).1⟩

/-- C13: in server mode, for a session with `connected = false` and
`readyForConnect = false`, handling an available presence whose capability
announcement is absent or uses a scheme other than `sha-1` sets `readyForConnect`,
fires ready-to-connect exactly once and does not start the capability-wait timer,
whatever the type and the target address of the presence. -/
theorem handlePresence_server_mode_ready (env : Env) (u : User) (p : Presence) (f : Bool)
    (hc : u.m_connected = false) (hr : u.m_readyForConnect = false)
    (hs : env.inServerMode = true)
    (hcaps : ∀ c, p.capsInfo = some c → c.hash ≠ "sha-1") :
    (u.handlePresence env p f).1.m_readyForConnect = true ∧
    (u.handlePresence env p f).2.count .onReadyToConnect = 1 ∧
    Event.reconnectTimerStart ∉ (u.handlePresence env p f).2 := by
  have hready := handlePresence_ready_unsupported env u p hc hr hcaps
  rw [hs, if_pos rfl] at hready
  have hfield := (handlePresence_ready_field env u p f).1
  obtain ⟨rest, hsplit, htimer, hfire⟩ := handlePresence_events_split env u p f
  rw [hready] at hfield hsplit hfire
  refine ⟨hfield rfl, ?_, ?_⟩
  · rw [hsplit, count_events _ _ _ (hfire rfl)]
    rfl
  · rw [hsplit]
    intro hmem
    rcases List.mem_append.mp hmem with h | h
    · simp at h
    · exact htimer _ h rfl

/-- Witness of C13, the scenario of the specification: `c@x` sends an available
presence announcing the scheme `md5` to a gateway in server mode. -/
theorem handlePresence_server_mode_ready_witness :
    (Sample.user.handlePresence Sample.envServer Sample.availableMd5 false).1.m_readyForConnect
      = true ∧
    (Sample.user.handlePresence Sample.envServer Sample.availableMd5 false).2.count
      .onReadyToConnect = 1 ∧
    Event.reconnectTimerStart ∉
      (Sample.user.handlePresence Sample.envServer Sample.availableMd5 false).2 :=
  handlePresence_server_mode_ready Sample.envServer Sample.user Sample.availableMd5 false
    (by decide) (by decide) (by decide) (by decide)

/-- C14: for a session with `connected = false` and `readyForConnect = false` and
a presence for the bare identity that announces the scheme `sha-1`: when the
capability cache holds features for the sender, `handlePresence` sets
`readyForConnect` and fires ready-to-connect (once, no timer); when it does not,
`handlePresence` starts the capability-wait timer (once), leaves
`readyForConnect = false` and fires no ready-to-connect. -/
theorem handlePresence_supported_caps (env : Env) (u : User) (p : Presence) (f : Bool)
    (c : CapsInfo)
    (hc : u.m_connected = false) (hr : u.m_readyForConnect = false)
    (hnode : p.to_.node = "") (hp : p.capsInfo = some c) (hhash : c.hash = "sha-1") :
    ((env.getCaps p.from_).isSome = true →
      (u.handlePresence env p f).1.m_readyForConnect = true ∧
      (u.handlePresence env p f).2.count .onReadyToConnect = 1 ∧
      Event.reconnectTimerStart ∉ (u.handlePresence env p f).2) ∧
    (env.getCaps p.from_ = none →
      (u.handlePresence env p f).1.m_readyForConnect = false ∧
      (u.handlePresence env p f).2.count .reconnectTimerStart = 1 ∧
      Event.onReadyToConnect ∉ (u.handlePresence env p f).2) := by
  have hready := handlePresence_ready_supported env u p c hc hr hp hhash
  have hfield := (handlePresence_ready_field env u p f).2 hnode
  have hev := handlePresence_bare_events env (u.handlePresence_ready env p).1 p
  rw [handlePresence_of_bare env u p f hnode] at hfield ⊢
  constructor
  · intro hs
    rw [hs, if_pos rfl] at hready
    rw [hready] at hfield hev ⊢
    refine ⟨hfield, ?_, ?_⟩
    · rw [count_events _ _ _ (fun x hx => (hev x hx).1)]
      rfl
    · intro hmem
      rcases List.mem_append.mp hmem with h | h
      · simp at h
      · exact (hev _ h).2 rfl
  · intro hs
    rw [hs] at hready
    simp only [Option.isSome_none, Bool.false_eq_true, if_false] at hready
    rw [hready] at hfield hev ⊢
    refine ⟨hfield.trans hr, ?_, ?_⟩
    · rw [count_events _ _ _ (fun x hx => (hev x hx).2)]
      rfl
    · intro hmem
      rcases List.mem_append.mp hmem with h | h
      · simp at h
      · exact (hev _ h).1 rfl

/-- Witness of C14: the fresh session of `c@x` receives a presence announcing
`sha-1`, with and without cached capabilities for the sender. -/
theorem handlePresence_supported_caps_witness :
    (Sample.user.handlePresence Sample.envCached Sample.availableSha1 false).1.m_readyForConnect
      = true ∧
    (Sample.user.handlePresence Sample.env Sample.availableSha1 false).1.m_readyForConnect
      = false :=
  ⟨((handlePresence_supported_caps Sample.envCached Sample.user Sample.availableSha1 false
      ⟨"client", "v1", "sha-1"⟩ (by decide) (by decide) (by decide) rfl rfl).1 (by decide)).1,
   ((handlePresence_supported_caps Sample.env Sample.user Sample.availableSha1 false
      ⟨"client", "v1", "sha-1"⟩ (by decide) (by decide) (by decide) rfl rfl).2 (by decide)).1⟩

theorem legacyCaps_store_lookup (l : List (JID × Option DiscoInfo)) (jid : JID)
    (info : Option DiscoInfo) :
    ((jid, info) :: l.filter (fun kv => decide (kv.1 ≠ jid))).lookup jid = some info := by
  simp [List.lookup]

theorem legacyCaps_store_twice (l : List (JID × Option DiscoInfo)) (jid : JID)
    (info : Option DiscoInfo) :
    (jid, info) :: ((jid, info) :: l.filter (fun kv => decide (kv.1 ≠ jid))).filter
        (fun kv => decide (kv.1 ≠ jid)) =
      (jid, info) :: l.filter (fun kv => decide (kv.1 ≠ jid)) := by
  simp [List.filter_cons, List.filter_filter]

theorem onConnectingTimeout_fixed (env : Env) (u : User) :
    (u.onConnectingTimeout env).1.m_legacyCaps = u.m_legacyCaps ∧
    (u.onConnectingTimeout env).1.m_jid = u.m_jid ∧
    ((u.onConnectingTimeout env).1.m_connected = true ∨
      (u.onConnectingTimeout env).1.m_readyForConnect = true) := by
  unfold onConnectingTimeout
  split_ifs with h
  · refine ⟨rfl, rfl, ?_⟩
    simpa using h
  · exact ⟨rfl, rfl, Or.inr rfl⟩

theorem onConnectingTimeout_idle (env : Env) (u : User)
    (h : u.m_connected = true ∨ u.m_readyForConnect = true) :
    u.onConnectingTimeout env = (u, []) := by
  rcases h with h | h <;> simp [onConnectingTimeout, h]

theorem handleDiscoInfo_legacyCaps (env : Env) (u : User) (jid : JID)
    (info : Option DiscoInfo) :
    (u.handleDiscoInfo env jid info).1.m_legacyCaps =
      (if env.SUPPORT_LEGACY_CAPS = true ∧ (env.getCaps jid).isNone = true then
        (jid, info) :: u.m_legacyCaps.filter (fun kv => decide (kv.1 ≠ jid))
       else u.m_legacyCaps) ∧
    (u.handleDiscoInfo env jid info).1.m_jid = u.m_jid := by
  unfold handleDiscoInfo
  simp only []
  split_ifs <;>
    exact ⟨(onConnectingTimeout_fixed env _).1, (onConnectingTimeout_fixed env _).2.1⟩

theorem handleDiscoInfo_twice (env : Env) (u : User) (jid : JID) (info : Option DiscoInfo) :
    (u.handleDiscoInfo env jid info).1.handleDiscoInfo env jid info =
      ((u.handleDiscoInfo env jid info).1, []) := by
  have hcaps := (handleDiscoInfo_legacyCaps env u jid info).1
  have hidle : (u.handleDiscoInfo env jid info).1.m_connected = true ∨
      (u.handleDiscoInfo env jid info).1.m_readyForConnect = true := by
    unfold handleDiscoInfo
    exact (onConnectingTimeout_fixed env _).2.2
  generalize (u.handleDiscoInfo env jid info).1 = s at hcaps hidle
  unfold handleDiscoInfo
  simp only []
  by_cases hc : env.SUPPORT_LEGACY_CAPS = true ∧ (env.getCaps jid).isNone = true
  · rw [if_pos hc] at hcaps
    rw [if_pos hc]
    have hs : { s with m_legacyCaps :=
        (jid, info) :: s.m_legacyCaps.filter (fun kv => decide (kv.1 ≠ jid)) } = s := by
      rw [hcaps, legacyCaps_store_twice, ← hcaps]
    rw [hs]
    exact onConnectingTimeout_idle env s hidle
  · rw [if_neg hc]
    exact onConnectingTimeout_idle env s hidle

/-- C19: with legacy-capability support compiled in, `handleDiscoInfo(address,
features)` stores the features in the legacy fallback map when the capability
cache has no entry for the address and leaves the map as it is when the cache has
one; afterwards `getCaps(address)` is the cache entry when there is one and the
stored features otherwise; and a second identical call returns the session
unchanged and makes no call, so fires no further ready-to-connect. -/
theorem handleDiscoInfo_legacy (env : Env) (u : User) (jid : JID) (info : Option DiscoInfo)
    (hleg : env.SUPPORT_LEGACY_CAPS = true) :
    (env.getCaps jid = none →
      (u.handleDiscoInfo env jid info).1.m_legacyCaps.lookup jid = some info) ∧
    ((env.getCaps jid).isSome = true →
      (u.handleDiscoInfo env jid info).1.m_legacyCaps = u.m_legacyCaps) ∧
    (u.handleDiscoInfo env jid info).1.getCaps env jid =
      (match env.getCaps jid with
       | some discoInfo => some discoInfo
       | none => info) ∧
    (u.handleDiscoInfo env jid info).1.handleDiscoInfo env jid info =
      ((u.handleDiscoInfo env jid info).1, []) := by
  have hcaps := (handleDiscoInfo_legacyCaps env u jid info).1
  refine ⟨fun hnone => ?_, fun hsome => ?_, ?_, handleDiscoInfo_twice env u jid info⟩
  · rw [hcaps, if_pos ⟨hleg, by simp [hnone]⟩]
    exact legacyCaps_store_lookup _ _ _
  · rw [hcaps, if_neg]
    intro h
    rw [Option.isNone_iff_eq_none] at h
    rw [h.2] at hsome
    cases hsome
  · unfold getCaps
    cases hg : env.getCaps jid with
    | some d => rfl
    | none =>
      simp only [hleg, if_true]
      rw [hcaps, if_pos ⟨hleg, by simp [hg]⟩, legacyCaps_store_lookup]

/-- Witness of C19, the call of the test `sendFileSIIBB`: the file-transfer
feature set is delivered for `c@x/phone`, unknown to the capability cache. -/
theorem handleDiscoInfo_legacy_witness :
    (Sample.user.handleDiscoInfo Sample.envOnline ⟨"c", "x", "phone"⟩
        (some Sample.fileTransfer)).1.getCaps Sample.envOnline ⟨"c", "x", "phone"⟩ =
      some Sample.fileTransfer :=
  (handleDiscoInfo_legacy Sample.envOnline Sample.user ⟨"c", "x", "phone"⟩
    (some Sample.fileTransfer) rfl).2.2.1

theorem getJIDWithFeature_pointwise (env : Env) (u : User) (feature : String) (p : Presence) :
    (if p.type = .Unavailable then none
     else
      match env.getCaps p.from_ with
      | some discoInfo => if discoInfo.hasFeature feature then some p.from_ else none
      | none =>
        if env.SUPPORT_LEGACY_CAPS then
          match u.m_legacyCaps.lookup p.from_ with
          | some (some discoInfo) => if discoInfo.hasFeature feature then some p.from_ else none
          | some none => none
          | none => none
        else none) =
    (if (decide (p.type ≠ .Unavailable) &&
        (match u.getCaps env p.from_ with
         | some discoInfo => discoInfo.hasFeature feature
         | none => false)) = true then some p.from_ else none) := by
  unfold getCaps
  by_cases ht : p.type = .Unavailable
  · simp [ht]
  · cases hg : env.getCaps p.from_ with
    | some d => by_cases hf : d.hasFeature feature = true <;> simp [ht, hf]
    | none =>
      by_cases hleg : env.SUPPORT_LEGACY_CAPS = true
      · cases hl : u.m_legacyCaps.lookup p.from_ with
        | none => simp [ht, hleg]
        | some entry =>
          cases entry with
          | none => simp [ht, hleg]
          | some d => by_cases hf : d.hasFeature feature = true <;> simp [ht, hleg, hf]
      · simp [ht, hleg]

theorem filterMap_ite_some {α β : Type} (l : List α) (c : α → Bool) (g : α → β) :
    l.filterMap (fun a => if c a = true then some (g a) else none) = (l.filter c).map g := by
  induction l with
  | nil => rfl
  | cons a l ih =>
    by_cases h : c a = true
    · simp [List.filterMap_cons, List.filter_cons, h, ih]
    · simp [List.filterMap_cons, List.filter_cons, h, ih]

theorem getJIDWithFeature_refines (env : Env) (u : User) (feature : String) :
    u.getJIDWithFeature env feature = u.getJIDWithFeature_spec env feature := by
  unfold getJIDWithFeature getJIDWithFeature_spec
  rw [← filterMap_ite_some]
  congr 1
  funext p
  exact getJIDWithFeature_pointwise env u feature p

/-- C20 fails as stated in its last part: the capability cache holds an entry for
`c@x/phone` without the file-transfer feature, so `handleDiscoInfo` does not store
the delivered feature set, and `getJIDWithFeature` still returns nothing for the
feature although the resource is available. -/
theorem getJIDWithFeature_cached_counterexample :
    Sample.fileTransfer.hasFeature "http://jabber.org/protocol/si/profile/file-transfer"
      = true ∧
    Sample.envOnlineCached.SUPPORT_LEGACY_CAPS = true ∧
    (Sample.envOnlineCached.getAllPresence Sample.user.m_jid).map (fun p => (p.from_, p.type))
      = [(⟨"c", "x", "phone"⟩, .Available)] ∧
    (Sample.user.handleDiscoInfo Sample.envOnlineCached ⟨"c", "x", "phone"⟩
        (some Sample.fileTransfer)).1.getJIDWithFeature Sample.envOnlineCached
        "http://jabber.org/protocol/si/profile/file-transfer" = [] := by
  decide

/-- C20 (amended): for every feature `f`, `getJIDWithFeature(f)` returns, in
aggregator order, exactly the sender addresses of the presences of the identity
that are not `Unavailable` and whose capabilities (capability cache entry, else
legacy fallback entry) include `f`; it is empty when no capabilities are known for
any resource; and, with legacy support compiled in, it contains a resource that
has a presence other than `Unavailable` after `handleDiscoInfo` delivered a feature
set containing `f` for it, provided the capability cache has no entry for that
resource. -/
theorem getJIDWithFeature_exact (env : Env) (u : User) (feature : String) :
    u.getJIDWithFeature env feature = u.getJIDWithFeature_spec env feature ∧
    ((∀ p ∈ env.getAllPresence u.m_jid, u.getCaps env p.from_ = none) →
      u.getJIDWithFeature env feature = []) ∧
    (∀ (p : Presence) (discoInfo : DiscoInfo),
      env.SUPPORT_LEGACY_CAPS = true → env.getCaps p.from_ = none →
      discoInfo.hasFeature feature = true →
      p ∈ env.getAllPresence u.m_jid → p.type ≠ .Unavailable →
      p.from_ ∈ (u.handleDiscoInfo env p.from_ (some discoInfo)).1.getJIDWithFeature env
        feature) := by
  refine ⟨getJIDWithFeature_refines env u feature, fun hnone => ?_, ?_⟩
  · rw [getJIDWithFeature_refines]
    unfold getJIDWithFeature_spec
    rw [List.map_eq_nil_iff, List.filter_eq_nil_iff]
    intro p hp
    simp [hnone p hp]
  · intro p discoInfo hleg hcache hfeat hmem htype
    rw [getJIDWithFeature_refines]
    unfold getJIDWithFeature_spec
    rw [(handleDiscoInfo_legacyCaps env u p.from_ (some discoInfo)).2]
    refine List.mem_map.mpr ⟨p, List.mem_filter.mpr ⟨hmem, ?_⟩, rfl⟩
    have hget : (u.handleDiscoInfo env p.from_ (some discoInfo)).1.getCaps env p.from_ =
        some discoInfo := by
      unfold getCaps
      simp only [hcache, hleg, if_true]
      rw [(handleDiscoInfo_legacyCaps env u p.from_ (some discoInfo)).1,
        if_pos ⟨hleg, by simp [hcache]⟩, legacyCaps_store_lookup]
    simp [htype, hget, hfeat]

/-- Witness of C20 (amended), as in the tests `sendFileNoMethod` and
`sendFileSIIBB`: nothing is returned while no capabilities are known, and
`c@x/phone` is returned once the file-transfer feature set was delivered for it. -/
theorem getJIDWithFeature_exact_witness :
    Sample.user.getJIDWithFeature Sample.envOnline
      "http://jabber.org/protocol/si/profile/file-transfer" = [] ∧
    (⟨"c", "x", "phone"⟩ : JID) ∈
      (Sample.user.handleDiscoInfo Sample.envOnline ⟨"c", "x", "phone"⟩
        (some Sample.fileTransfer)).1.getJIDWithFeature Sample.envOnline
        "http://jabber.org/protocol/si/profile/file-transfer" :=
  ⟨(getJIDWithFeature_exact Sample.envOnline Sample.user
      "http://jabber.org/protocol/si/profile/file-transfer").2.1 (by decide),
   (getJIDWithFeature_exact Sample.envOnline Sample.user
      "http://jabber.org/protocol/si/profile/file-transfer").2.2 Sample.available
      Sample.fileTransfer rfl rfl (by decide) (by decide) (by decide)⟩

theorem handlePresence_resources_state (env : Env) (u : User) (p : Presence) :
    (u.handlePresence_resources env p).1 =
      { u with
        m_resources := ((env.getAllPresence u.m_jid).length : Int)
        m_conversationManager :=
          if p.type = .Unavailable then u.m_conversationManager.resetResources.removeJID p.from_
          else u.m_conversationManager.resetResources } := by
  unfold handlePresence_resources
  simp only []
  split_ifs <;> rfl

theorem handlePresence_resources_notChanged (env : Env) (u : User) (p : Presence) :
    ∀ ev ∈ (u.handlePresence_resources env p).2, ev.isPresenceChanged = false := by
  intro ev hev
  unfold handlePresence_resources at hev
  simp only [] at hev
  rcases List.mem_append.mp hev with h | h
  · rcases mem_ite_list h with h | h
    · rcases mem_ite_list h with h | h
      · simp only [List.mem_cons, List.mem_singleton, List.not_mem_nil, or_false] at h
        rcases h with rfl | rfl <;> rfl
      · obtain ⟨q, rfl⟩ := sendCurrentPresence_isSendPresence env _ ev h
        rfl
    · cases h
  · rcases mem_ite_list h with h | h
    · simp only [List.mem_singleton] at h
      subst h
      rfl
    · cases h

theorem handlePresence_forward_sticky (env : Env) (u : User)
    (hr : u.m_readyForConnect = true)
    (hstay : env.getUserSetting "stay_connected" = "1")
    (hhigh : ∀ h, env.getHighestPriorityPresence u.m_jid.toBare = some h →
      h.type = .Unavailable) :
    (u.handlePresence_forward env).1 =
      { u with m_resources := 0, m_cacheMessages := true,
               m_conversationManager := u.m_conversationManager.clearJIDs } ∧
    ∀ ev ∈ (u.handlePresence_forward env).2, ev.isPresenceChanged = false := by
  unfold handlePresence_forward setCacheMessages
  simp only [hr, if_true]
  cases hh : env.getHighestPriorityPresence u.m_jid.toBare with
  | none =>
    simp only [hstay, if_true]
    refine ⟨trivial, fun ev hev => ?_⟩
    rcases mem_ite_list hev with h | h
    · simp only [List.mem_singleton] at h
      subst h
      rfl
    · cases h
  | some h =>
    simp only [hhigh h hh, hstay, and_self, if_true]
    refine ⟨trivial, fun ev hev => ?_⟩
    rcases List.mem_append.mp hev with h1 | h1
    · rcases mem_ite_list h1 with h2 | h2
      · simp only [List.mem_singleton] at h2
        subst h2
        rfl
      · cases h2
    · rcases mem_ite_list h1 with h2 | h2
      · simp only [List.mem_singleton] at h2
        subst h2
        rfl
      · cases h2

/-- C21: for a ready session whose `stay_connected` setting is "1", handling a
presence for the bare identity when the aggregator's highest-priority presence is
absent or `Unavailable` forwards no presence-changed notification to the backend,
sets `cacheOutgoingMessages = true` and `resourceCount = 0`, and empties the
participants of every conversation while every conversation stays registered
(same names, group flags and nicknames, in the same order). -/
theorem handlePresence_sticky (env : Env) (u : User) (p : Presence) (f : Bool)
    (hr : u.m_readyForConnect = true) (hnode : p.to_.node = "")
    (hstay : env.getUserSetting "stay_connected" = "1")
    (hhigh : ∀ h, env.getHighestPriorityPresence u.m_jid.toBare = some h →
      h.type = .Unavailable) :
    (∀ ev ∈ (u.handlePresence env p f).2, ev.isPresenceChanged = false) ∧
    (u.handlePresence env p f).1.m_cacheMessages = true ∧
    (u.handlePresence env p f).1.m_resources = 0 ∧
    (u.handlePresence env p f).1.m_conversationManager = u.m_conversationManager.clearJIDs ∧
    (∀ c ∈ (u.handlePresence env p f).1.m_conversationManager.convs, c.jids = []) ∧
    (u.handlePresence env p f).1.m_conversationManager.convs.map
        (fun c => (c.legacyName, c.isMUC, c.nickname)) =
      u.m_conversationManager.convs.map (fun c => (c.legacyName, c.isMUC, c.nickname)) := by
  rw [handlePresence_of_bare env u p f hnode, handlePresence_ready_of_ready env u p hr]
  unfold handlePresence_bare
  simp only [List.nil_append]
  have hres := handlePresence_resources_state env u p
  have hev1 := handlePresence_resources_notChanged env u p
  have hfwd := handlePresence_forward_sticky env (u.handlePresence_resources env p).1
    (by rw [hres]; exact hr) hstay (by rw [hres]; exact hhigh)
  have hcm : (u.handlePresence_resources env p).1.m_conversationManager.clearJIDs =
      u.m_conversationManager.clearJIDs := by
    rw [hres]
    simp only []
    split_ifs
    · rw [ConversationManager.clearJIDs_removeJID]
      rfl
    · rfl
  have hcm2 : (handlePresence_forward env
      (u.handlePresence_resources env p).1).1.m_conversationManager =
      u.m_conversationManager.clearJIDs := by
    rw [hfwd.1]
    exact hcm
  refine ⟨?_, by rw [hfwd.1], by rw [hfwd.1], hcm2, ?_, ?_⟩
  · intro ev hev
    rcases List.mem_append.mp hev with h | h
    · exact hev1 ev h
    · exact hfwd.2 ev h
  · rw [hcm2]
    exact ConversationManager.clearJIDs_jids _
  · rw [hcm2]
    exact ConversationManager.clearJIDs_names _

/-- Witness of C21: the last resource of `b@x` goes offline while the session
holds the conversation `room1`. -/
theorem handlePresence_sticky_witness :
    (Sample.roomUser.handlePresence Sample.envStickyOffline Sample.unavailable
      false).1.m_cacheMessages = true ∧
    (Sample.roomUser.handlePresence Sample.envStickyOffline Sample.unavailable
      false).1.m_conversationManager = ⟨[⟨"room1", true, "nick", []⟩]⟩ :=
  have h := handlePresence_sticky Sample.envStickyOffline Sample.roomUser Sample.unavailable
    false (by decide) (by decide) (by decide) (fun _ hh => Option.noConfusion hh)
  ⟨h.2.1, h.2.2.2.1.trans (by decide)⟩

theorem handlePresence_ready_other (env : Env) (u : User) (p : Presence) :
    (u.handlePresence_ready env p).1.m_resources = u.m_resources ∧
    (u.handlePresence_ready env p).1.m_cacheMessages = u.m_cacheMessages ∧
    (u.handlePresence_ready env p).1.m_joinedRooms = u.m_joinedRooms ∧
    (u.handlePresence_ready env p).1.m_conversationManager = u.m_conversationManager ∧
    ∀ ev ∈ (u.handlePresence_ready env p).2,
      ev.isBareCall = false ∧ ev.isRoomLeft = false ∧ ev.isRoomJoined = false := by
  obtain ⟨b, hb, _⟩ := handlePresence_ready_state env u p
  refine ⟨by rw [hb], by rw [hb], by rw [hb], by rw [hb], fun ev hev => ?_⟩
  rcases handlePresence_ready_events env u p ev hev with rfl | rfl <;> exact ⟨rfl, rfl, rfl⟩

theorem handlePresence_of_other (env : Env) (u : User) (p : Presence) (f : Bool)
    (hnode : p.to_.node ≠ "") (htype : p.type ≠ .Unavailable) (hmuc : isMUC p = false) :
    u.handlePresence env p f =
      (((u.handlePresence_ready env p).1.handlePresence_bare env p).1,
        (u.handlePresence_ready env p).2 ++ [.onRawPresenceReceived p] ++
          ((u.handlePresence_ready env p).1.handlePresence_bare env p).2) := by
  simp [handlePresence, hnode, htype, hmuc]

theorem handlePresence_ready_count (env : Env) (u : User) (p : Presence) :
    (u.handlePresence_ready env p).2.count .onReadyToConnect =
      if u.m_readyForConnect = false ∧ (u.handlePresence_ready env p).1.m_readyForConnect = true
      then 1 else 0 := by
  obtain ⟨jid, conn, ready, ign, res, cnt, cache, J, caps, cm⟩ := u
  unfold handlePresence_ready
  cases conn <;> cases ready <;> cases p.capsInfo <;> simp only [] <;> split_ifs <;>
    simp_all [List.count_cons]

theorem handlePresence_join_count (env : Env) (u : User) (p : Presence) (f : Bool) :
    (u.handlePresence_join env p f).2.count .onReadyToConnect =
      if u.m_readyForConnect = false then 1 else 0 := by
  obtain ⟨jid, conn, ready, ign, res, cnt, cache, J, caps, cm⟩ := u
  unfold handlePresence_join
  simp only []
  cases hg : cm.getConversation (env.JIDToLegacyName p.to_) with
  | none =>
    cases ready <;> cases conn <;> simp [hg, List.count_cons]
  | some conv =>
    by_cases hin : p.from_ ∈ conv.jids <;> cases ready <;> cases f <;>
      simp [hg, hin, List.count_cons]

theorem count_zero_of_forall (evs : List Event) (ev : Event) (h : ∀ x ∈ evs, x ≠ ev) :
    evs.count ev = 0 :=
  List.count_eq_zero.mpr (fun hm => h ev hm rfl)

theorem handlePresence_count (env : Env) (u : User) (p : Presence) (f : Bool) :
    (u.handlePresence env p f).2.count .onReadyToConnect =
      if u.m_readyForConnect = false ∧ (u.handlePresence env p f).1.m_readyForConnect = true
      then 1 else 0 := by
  have hblock := handlePresence_ready_count env u p
  have hmono := (handlePresence_ready_frame env u p).2
  have hbare := count_zero_of_forall _ Event.onReadyToConnect
    (fun x hx => (handlePresence_bare_events env (u.handlePresence_ready env p).1 p x hx).1)
  have hbarekeep := (handlePresence_bare_frame env (u.handlePresence_ready env p).1 p).2
  by_cases hnode : p.to_.node = ""
  · rw [handlePresence_of_bare env u p f hnode]
    simp only [List.count_append, hbare, hbarekeep, Nat.add_zero]
    exact hblock
  · by_cases htype : p.type = .Unavailable
    · rw [handlePresence_of_leave env u p f hnode htype]
      have hcount := count_zero_of_forall _ Event.onReadyToConnect
        (fun x hx => (handlePresence_leave_events env (u.handlePresence_ready env p).1 p x hx).1)
      have hkeep := (handlePresence_leave_frame env (u.handlePresence_ready env p).1 p).2
      simp only [List.count_append, hcount, hkeep, Nat.add_zero]
      exact hblock
    · by_cases hmuc : isMUC p = true
      · rw [handlePresence_of_isRoomJoin env u p f ⟨hnode, htype, hmuc⟩]
        have hcount := handlePresence_join_count env (u.handlePresence_ready env p).1 p f
        have hkeep := (handlePresence_join_frame env (u.handlePresence_ready env p).1 p f).2
        simp only [List.count_append, hcount, hkeep, hblock]
        cases hu : u.m_readyForConnect
        · cases hb : (u.handlePresence_ready env p).1.m_readyForConnect <;> simp
        · simp [hmono hu]
      · rw [handlePresence_of_other env u p f hnode htype (by simpa using hmuc)]
        simp only [List.count_append, hbare, hbarekeep, Nat.add_zero]
        simpa [List.count_cons] using hblock

theorem onConnectingTimeout_count (env : Env) (u : User) :
    (u.onConnectingTimeout env).2.count .onReadyToConnect =
      if u.m_readyForConnect = false ∧ (u.onConnectingTimeout env).1.m_readyForConnect = true
      then 1 else 0 := by
  obtain ⟨jid, conn, ready, ign, res, cnt, cache, J, caps, cm⟩ := u
  unfold onConnectingTimeout
  cases conn <;> cases ready <;> simp [List.count_cons]
  cases env.getHighestPriorityPresence (JID.toBare jid) <;> simp [List.count_cons]

theorem step_ready_mono (u : User) (op : Op) (h : u.m_readyForConnect = true) :
    (u.step op).m_readyForConnect = true := by
  cases op with
  | handlePresence env p f => exact (handlePresence_frame env u p f).2 h
  | handleDiscoInfo env jid info => exact (handleDiscoInfo_frame env u jid info).2 h
  | onConnectingTimeout env => exact (onConnectingTimeout_frame env u).2 h
  | setConnected env b => exact (setConnected_frame env u b).2 h
  | handleDisconnected env um error e =>
    exact ((handleDisconnected_frame env um u error e).2).trans h

/-- C24: in every single call of `handlePresence`, `handleDiscoInfo` or
`onConnectingTimeout` the ready-to-connect notification fires once when
`readyForConnect` goes from false to true during the call and not at all
otherwise; and no operation of the session (these three, `setConnected`,
`handleDisconnected`) turns `readyForConnect` from true to false. -/
theorem ready_to_connect_fires_on_change (env : Env) (u : User) :
    (∀ p f, (u.handlePresence env p f).2.count .onReadyToConnect =
      if u.m_readyForConnect = false ∧ (u.handlePresence env p f).1.m_readyForConnect = true
      then 1 else 0) ∧
    (∀ jid info, (u.handleDiscoInfo env jid info).2.count .onReadyToConnect =
      if u.m_readyForConnect = false ∧
        (u.handleDiscoInfo env jid info).1.m_readyForConnect = true
      then 1 else 0) ∧
    ((u.onConnectingTimeout env).2.count .onReadyToConnect =
      if u.m_readyForConnect = false ∧ (u.onConnectingTimeout env).1.m_readyForConnect = true
      then 1 else 0) ∧
    (∀ op : Op, u.m_readyForConnect = true → (u.step op).m_readyForConnect = true) := by
  refine ⟨handlePresence_count env u, fun jid info => ?_, onConnectingTimeout_count env u,
    step_ready_mono u⟩
  unfold handleDiscoInfo
  simp only []
  by_cases hc : env.SUPPORT_LEGACY_CAPS = true ∧ (env.getCaps jid).isNone = true
  · rw [if_pos hc]
    exact onConnectingTimeout_count env _
  · rw [if_neg hc]
    exact onConnectingTimeout_count env u

theorem handlePresence_leave_absent (env : Env) (u : User) (p : Presence)
    (hnone : u.m_conversationManager.getConversation (env.JIDToLegacyName p.to_) = none) :
    u.handlePresence_leave env p = (u, []) := by
  simp [handlePresence_leave, hnone]

theorem replay_exists (env : Env) (r : String) (a : JID) (L : List Presence) (u : User)
    (ev : List Event) (hc : u.m_connected = true) (hL : ∀ q ∈ L, isRoomJoin q)
    (h : (∃ c, u.m_conversationManager.getConversation r = some c ∧ a ∈ c.jids) ∨
      ∃ q ∈ L, env.JIDToLegacyName q.to_ = r ∧ q.from_ = a) :
    ∃ c, (replayJoinedRooms env u ev L).1.m_conversationManager.getConversation r = some c ∧
      a ∈ c.jids := by
  induction L generalizing u ev with
  | nil =>
    rcases h with h | ⟨q, hq, _⟩
    · exact h
    · cases hq
  | cons p L ih =>
    have hp := hL p (List.mem_cons_self _ _)
    have hconn := (handlePresence_join_connected env u p hc).1
    have hcm := handlePresence_join_connected_cm env u p true hc r
    rw [← handlePresence_of_connected_join env u p true hc hp] at hconn hcm
    simp only [replayJoinedRooms]
    apply ih _ _ hconn (fun q hq => hL q (List.mem_cons_of_mem _ hq))
    have hkeep : (∃ c, u.m_conversationManager.getConversation r = some c ∧ a ∈ c.jids) →
        ∃ c, (u.handlePresence env p true).1.m_conversationManager.getConversation r = some c ∧
          a ∈ c.jids := by
      rintro ⟨c, hget, hmem⟩
      by_cases hr : env.JIDToLegacyName p.to_ = r
      · exact ⟨_, ((hcm.2 hr).2 c hget).1, Conversation.mem_addJID_of_mem c a _ hmem⟩
      · exact ⟨c, ((hcm.1 hr).1).trans hget, hmem⟩
    rcases h with h | ⟨q, hq, hqr, hqa⟩
    · exact Or.inl (hkeep h)
    · rcases List.mem_cons.mp hq with rfl | hq2
      · left
        cases hget : u.m_conversationManager.getConversation r with
        | none => exact ⟨_, ((hcm.2 hqr).1 hget).1, by simp [hqa]⟩
        | some c =>
          exact ⟨_, ((hcm.2 hqr).2 c hget).1, by rw [← hqa]; exact Conversation.mem_addJID _ _⟩
      · exact Or.inr ⟨q, hq2, hqr, hqa⟩

/-- C25: in a session where a join for room `r` is queued in `joinedRooms` (a
queue of room joins) and no conversation for `r` exists, as is the case while
`connected = false`, handling an `Unavailable` presence addressed to `r` leaves
`joinedRooms` as it is and fires no room-left notification; a following
`setConnected(true)` therefore still joins `r`: afterwards a conversation for `r`
exists with the queued sender among its participants, and the room-joined
notification of the queued presence was fired. -/
theorem leave_keeps_pending_join (env : Env) (u : User) (p q : Presence) (f : Bool)
    (r : String)
    (hJ : ∀ x ∈ u.m_joinedRooms, isRoomJoin x) (hq : q ∈ u.m_joinedRooms)
    (hqr : env.JIDToLegacyName q.to_ = r)
    (hnode : p.to_.node ≠ "") (htype : p.type = .Unavailable)
    (hpr : env.JIDToLegacyName p.to_ = r)
    (hnone : u.m_conversationManager.getConversation r = none) :
    (u.handlePresence env p f).1.m_joinedRooms = u.m_joinedRooms ∧
    (∀ ev ∈ (u.handlePresence env p f).2, ev.isRoomLeft = false) ∧
    (∃ c, ((u.handlePresence env p f).1.setConnected env
        true).1.m_conversationManager.getConversation r = some c ∧
      q.from_ ∈ c.jids) ∧
    roomJoinedOf env q ∈ ((u.handlePresence env p f).1.setConnected env true).2 := by
  obtain ⟨_, _, hqueue, hcm, hev⟩ := handlePresence_ready_other env u p
  have hleave := handlePresence_leave_absent env (u.handlePresence_ready env p).1 p
    (by rw [hcm, hpr]; exact hnone)
  have hstate : (u.handlePresence env p f).1 = (u.handlePresence_ready env p).1 := by
    rw [handlePresence_of_leave env u p f hnode htype, hleave]
  have hevents : (u.handlePresence env p f).2 = (u.handlePresence_ready env p).2 := by
    rw [handlePresence_of_leave env u p f hnode htype, hleave]
    simp
  rw [hstate, hevents]
  have hwf : ∀ x ∈ (u.handlePresence_ready env p).1.m_joinedRooms, isRoomJoin x ∧
      (u.handlePresence_ready env p).1.m_joinedRooms.any
        (fun y => decide (y.to_ = x.to_)) = true := by
    intro x hx
    exact ⟨hJ x (hqueue ▸ hx), mem_any_target _ x hx⟩
  have hq2 : q ∈ (u.handlePresence_ready env p).1.m_joinedRooms := by
    rw [hqueue]
    exact hq
  refine ⟨hqueue, fun ev hmem => (hev ev hmem).2.1, ?_, ?_⟩
  · rw [setConnected_true_eq]
    exact replay_exists env r q.from_ _ _ _ rfl (fun x hx => (hwf x hx).1)
      (Or.inr ⟨q, hq2, hqr, rfl⟩)
  · have hreplay := replay_joins env (u.handlePresence_ready env p).1.m_joinedRooms
      (u.handlePresence_ready env p).1.m_joinedRooms
      { (u.handlePresence_ready env p).1 with
        m_connected := true, m_reconnectCounter := 0, m_ignoreDisconnect := false }
      ([.updateLastActivity] ++ sendCurrentPresence env
        { (u.handlePresence_ready env p).1 with
          m_connected := true, m_reconnectCounter := 0, m_ignoreDisconnect := false })
      rfl rfl hwf
    rw [← setConnected_true_eq] at hreplay
    have hmem : roomJoinedOf env q ∈
        ((u.handlePresence_ready env p).1.setConnected env true).2.filter
          Event.isRoomJoined := by
      rw [hreplay.2.2.2]
      exact List.mem_append_right _ (List.mem_map.mpr ⟨q, hq2, rfl⟩)
    exact (List.mem_filter.mp hmem).1

/-- Witness of C25: `b@x/phone` queued a join for `room1` before the backend
connected, then leaves `room1`, then the backend connects. -/
theorem leave_keeps_pending_join_witness :
    ((Sample.freshUser.handlePresence Sample.env Sample.join false).1.handlePresence
      Sample.env Sample.leave false).1.m_joinedRooms = [Sample.join] ∧
    roomJoinedOf Sample.env Sample.join ∈
      (((Sample.freshUser.handlePresence Sample.env Sample.join false).1.handlePresence
        Sample.env Sample.leave false).1.setConnected Sample.env true).2 :=
  have h := leave_keeps_pending_join Sample.env
    (Sample.freshUser.handlePresence Sample.env Sample.join false).1 Sample.leave Sample.join
    false "room1" (by decide) (by decide) (by decide) (by decide) (by decide) (by decide)
    (by decide)
  ⟨h.1.trans (by decide), h.2.2.2⟩

end User

namespace UsersReconnecter

/-- One tick only shortens the queue at its back; `m_started` is not touched. -/
theorem reconnectNextUser_state (env : ReconnecterEnv) (s : UsersReconnecter) :
    (reconnectNextUser env s).state = { s with m_users := s.m_users.dropLast } := by
  unfold reconnectNextUser
  cases hl : s.m_users.getLast? with
  | none =>
    have hnil : s.m_users = [] := by simpa using hl
    simp [hnil]
    cases s
    simp_all
  | some jid =>
    simp only
    split
    · split
      · rfl
      · split
        · rfl
        · split
          · split <;> rfl
          · rfl
    · split <;> rfl

/-- A tick on an empty queue does nothing at all. -/
theorem reconnectNextUser_nil (env : ReconnecterEnv) (s : UsersReconnecter)
    (h : s.m_users = []) : reconnectNextUser env s = ⟨s, [], false⟩ := by
  simp [reconnectNextUser, h]

/-- Ticks never change `m_started`. -/
theorem ticks_started (env : ReconnecterEnv) (n : Nat) (s : UsersReconnecter) :
    (ticks env n s).m_started = s.m_started := by
  induction n generalizing s with
  | zero => rfl
  | succ n ih => simp [ticks, ih, reconnectNextUser_state]

/-- After `n` ticks the queue has lost its last `n` identities. -/
theorem ticks_users (env : ReconnecterEnv) (n : Nat) (s : UsersReconnecter) :
    (ticks env n s).m_users = s.m_users.take (s.m_users.length - n) := by
  induction n generalizing s with
  | zero => simp [ticks]
  | succ n ih =>
    simp only [ticks, ih, reconnectNextUser_state, List.length_dropLast]
    rw [List.dropLast_eq_take, List.take_take]
    congr 1
    omega

/-- A started scheduler ignores a link-up event. -/
theorem handleConnected_started_noop_aux (env : ReconnecterEnv) (s : UsersReconnecter)
    (h : s.m_started = true) : handleConnected env s = some ⟨s, [], false⟩ := by
  simp [handleConnected, h]

/-- C8: a tick on a non-empty queue removes exactly one identity (the one at the
back), so the queue is one shorter; a tick on an empty queue leaves the state
unchanged, emits nothing (no presence, no timer restart) and raises nothing. -/
theorem reconnectNextUser_queue (env : ReconnecterEnv) (s : UsersReconnecter) :
    (s.m_users ≠ [] →
      (reconnectNextUser env s).state.m_users = s.m_users.dropLast ∧
      (reconnectNextUser env s).state.m_users.length + 1 = s.m_users.length) ∧
    (s.m_users = [] → reconnectNextUser env s = ⟨s, [], false⟩) := by
  refine ⟨fun hne => ?_, reconnectNextUser_nil env s⟩
  rw [reconnectNextUser_state]
  refine ⟨rfl, ?_⟩
  have hpos : 0 < s.m_users.length := List.length_pos.mpr hne
  simp only [List.length_dropLast]
  omega

/-- Witness of C8: a queue of two identities in probe mode, and the empty queue. -/
theorem reconnectNextUser_queue_witness :
    ((reconnectNextUser Sample.reconnecterEnv ⟨["a@x", "b@x"], true⟩).state.m_users = ["a@x"] ∧
      (reconnectNextUser Sample.reconnecterEnv ⟨["a@x", "b@x"], true⟩).state.m_users.length + 1
        = 2) ∧
    reconnectNextUser Sample.reconnecterEnv ⟨[], true⟩ = ⟨⟨[], true⟩, [], false⟩ :=
  ⟨(reconnectNextUser_queue Sample.reconnecterEnv ⟨["a@x", "b@x"], true⟩).1 (by decide),
   (reconnectNextUser_queue Sample.reconnecterEnv ⟨[], true⟩).2 rfl⟩

/-- C9: while `started` is true a link-up event enqueues nothing, processes no
identity and emits nothing: the scheduler state is returned unchanged. -/
theorem handleConnected_started_noop (env : ReconnecterEnv) (s : UsersReconnecter)
    (h : s.m_started = true) : handleConnected env s = some ⟨s, [], false⟩ :=
  handleConnected_started_noop_aux env s h

/-- Witness of C9: a started scheduler with one identity still queued. -/
theorem handleConnected_started_noop_witness :
    handleConnected Sample.reconnecterEnv ⟨["a@x"], true⟩ = some ⟨⟨["a@x"], true⟩, [], false⟩ :=
  handleConnected_started_noop Sample.reconnecterEnv ⟨["a@x"], true⟩ rfl

/-- C10 fails as stated: the first link-up loads two online users and serves one,
one tick drains the queue, and a new link-up then leaves the queue empty and
emits nothing although storage still lists two online users. -/
theorem handleConnected_after_drain_counterexample :
    handleConnected Sample.reconnecterEnv UsersReconnecter.new =
      some ⟨⟨["a@x"], true⟩,
        [.sendPresence { Presence.create with
            to_ := ⟨"b@x", "", ""⟩, from_ := ⟨"", "gateway.x", ""⟩, type := .Probe },
         .nextUserTimerStart], false⟩ ∧
    ticks Sample.reconnecterEnv 1 ⟨["a@x"], true⟩ = ⟨[], true⟩ ∧
    Sample.storage.getOnlineUsers = ["a@x", "b@x"] ∧
    handleConnected Sample.reconnecterEnv ⟨[], true⟩ = some ⟨⟨[], true⟩, [], false⟩ :=
  ⟨by decide, by decide, rfl, by decide⟩

/-- A tick that pops an identity which converts to an address restarts the
tick timer exactly once and raises nothing, in both modes. -/
theorem reconnectNextUser_parsed_timer (env : ReconnecterEnv) (s : UsersReconnecter)
    (front : List String) (j : String) (target : JID)
    (hq : s.m_users = front ++ [j]) (hparse : env.parseJID j = some target) :
    (reconnectNextUser env s).events.count .nextUserTimerStart = 1 ∧
    (reconnectNextUser env s).raised = false := by
  have hlast : s.m_users.getLast? = some j := by simp [hq]
  unfold reconnectNextUser
  simp only [hlast]
  by_cases hmode : env.reconnect_on_start = true
  · simp only [hmode, if_true]
    cases hsb : env.m_storageBackend with
    | none => simp [List.count_cons]
    | some sb =>
      cases hu : sb.getUser j with
      | none => simp [hu, List.count_cons]
      | some info =>
        by_cases hv : sb.getUserSetting info.id "stay_connected" "1" = "1"
        · simp [hu, hv, hparse, List.count_cons]
        · simp [hu, hv, List.count_cons]
  · simp [hmode, hparse, List.count_cons]

/-- C10 (amended): only the first link-up of a scheduler runs it.  The first
link-up loads the policy-selected population (all users when reconnect-on-start is
enabled, otherwise the online users) and runs the first tick on it at once: the
queue loses the identity at its back, and when the population is non-empty and
that identity converts to an address the tick timer is started once, so pacing
begins, while an empty population makes no call at all.  The queue is empty after
as many ticks as identities remain.  Every later link-up, also after the queue has
drained, is a no-op that neither repopulates the queue nor makes any call. -/
theorem handleConnected_runs_once (env : ReconnecterEnv) (storageBackend : StorageBackend)
    (hsb : env.m_storageBackend = some storageBackend) :
    handleConnected env UsersReconnecter.new =
      some (reconnectNextUser env ⟨selectedUsers env storageBackend, true⟩) ∧
    (reconnectNextUser env ⟨selectedUsers env storageBackend, true⟩).state =
      ⟨(selectedUsers env storageBackend).dropLast, true⟩ ∧
    (∀ front j target, selectedUsers env storageBackend = front ++ [j] →
      env.parseJID j = some target →
      (reconnectNextUser env ⟨selectedUsers env storageBackend, true⟩).state.m_users = front ∧
      (reconnectNextUser env ⟨selectedUsers env storageBackend, true⟩).events.count
        .nextUserTimerStart = 1 ∧
      (reconnectNextUser env ⟨selectedUsers env storageBackend, true⟩).raised = false) ∧
    (selectedUsers env storageBackend = [] →
      reconnectNextUser env ⟨selectedUsers env storageBackend, true⟩ =
        ⟨⟨[], true⟩, [], false⟩) ∧
    (ticks env (selectedUsers env storageBackend).dropLast.length
      (reconnectNextUser env ⟨selectedUsers env storageBackend, true⟩).state).m_users = [] ∧
    ∀ n, handleConnected env
        (ticks env n (reconnectNextUser env ⟨selectedUsers env storageBackend, true⟩).state) =
      some ⟨ticks env n
        (reconnectNextUser env ⟨selectedUsers env storageBackend, true⟩).state, [], false⟩ := by
  refine ⟨by simp [handleConnected, UsersReconnecter.new, hsb, selectedUsers],
    reconnectNextUser_state env _, ?_, ?_, ?_, ?_⟩
  · intro front j target hpop hparse
    have h := reconnectNextUser_parsed_timer env ⟨selectedUsers env storageBackend, true⟩
      front j target hpop hparse
    refine ⟨?_, h.1, h.2⟩
    rw [reconnectNextUser_state]
    simp [hpop]
  · intro hempty
    rw [reconnectNextUser_nil env _ (by simpa using hempty), hempty]
  · simp [ticks_users, reconnectNextUser_state]
  · intro n
    apply handleConnected_started_noop_aux
    rw [ticks_started, reconnectNextUser_state]

/-- Witness of C10 (amended) in probe mode over a storage with two online users:
the first link-up sends the probe for `b@x`, leaves `a@x` queued and starts the
tick timer; after one more tick the queue has drained and a link-up does
nothing. -/
theorem handleConnected_runs_once_witness :
    handleConnected Sample.reconnecterEnv UsersReconnecter.new =
      some ⟨⟨["a@x"], true⟩,
        [.sendPresence { Presence.create with
            to_ := ⟨"b@x", "", ""⟩, from_ := ⟨"", "gateway.x", ""⟩, type := .Probe },
         .nextUserTimerStart], false⟩ ∧
    (ticks Sample.reconnecterEnv 1 (reconnectNextUser Sample.reconnecterEnv
      ⟨selectedUsers Sample.reconnecterEnv Sample.storage, true⟩).state).m_users = [] ∧
    handleConnected Sample.reconnecterEnv
        (ticks Sample.reconnecterEnv 1 (reconnectNextUser Sample.reconnecterEnv
          ⟨selectedUsers Sample.reconnecterEnv Sample.storage, true⟩).state) =
      some ⟨ticks Sample.reconnecterEnv 1 (reconnectNextUser Sample.reconnecterEnv
        ⟨selectedUsers Sample.reconnecterEnv Sample.storage, true⟩).state, [], false⟩ :=
  ⟨(handleConnected_runs_once Sample.reconnecterEnv Sample.storage rfl).1.trans (by decide),
   (handleConnected_runs_once Sample.reconnecterEnv Sample.storage rfl).2.2.2.2.1,
   (handleConnected_runs_once Sample.reconnecterEnv Sample.storage rfl).2.2.2.2.2 1⟩

/-- C11, the code at the failing input: in probe mode the identity at the back
of the queue does not parse; the tick pops it, sends no presence and does not
restart the tick timer, so `a@x` stays in the queue with no tick to come. -/
theorem reconnectNextUser_unparsable_stalls :
    Sample.reconnecterEnv.reconnect_on_start = false ∧
    Sample.reconnecterEnv.parseJID "" = none ∧
    reconnectNextUser Sample.reconnecterEnv ⟨["a@x", ""], true⟩ =
      ⟨⟨["a@x"], true⟩, [], false⟩ := by
  decide

/-- C22, the code at the failing input: in auto-reconnect mode storage holds a
record for `a@@x` and its `stay_connected` setting reads "1", but the identity
does not convert to an address; the tick pops it, feeds no presence, the exception
of the unguarded `setFrom` leaves the function and the tick timer is not
restarted, so `a@x` stays in the queue with no tick to come. -/
theorem reconnectNextUser_auto_unparsable_raises :
    Sample.reconnecterEnvAuto.reconnect_on_start = true ∧
    Sample.storageAuto.getUser "a@@x" = some ⟨3, "a@@x"⟩ ∧
    Sample.storageAuto.getUserSetting 3 "stay_connected" "1" = "1" ∧
    Sample.reconnecterEnvAuto.parseJID "a@@x" = none ∧
    reconnectNextUser Sample.reconnecterEnvAuto ⟨["a@x", "a@@x"], true⟩ =
      ⟨⟨["a@x"], true⟩, [], true⟩ := by
  decide

/-- In auto-reconnect mode a tick pops the identity `j` at the back of the queue.
When storage holds a record for `j` whose `stay_connected` setting reads "1" and
`j` converts to an address, the tick feeds one synthetic `Available` presence from
`j` to the gateway's own address into the front-end presence pipeline and restarts
the tick timer; when storage holds no such record, the tick feeds nothing and
restarts the tick timer, whether or not `j` converts.  The one case left is a
record with the setting for an identity that does not convert. -/
theorem reconnectNextUser_auto (env : ReconnecterEnv) (s : UsersReconnecter)
    (front : List String) (j : String)
    (hmode : env.reconnect_on_start = true) (hq : s.m_users = front ++ [j]) :
    (reconnectNextUser env s).state = { s with m_users := front } ∧
    (∀ storageBackend userInfo sender, env.m_storageBackend = some storageBackend →
        storageBackend.getUser j = some userInfo →
        storageBackend.getUserSetting userInfo.id "stay_connected" "1" = "1" →
        env.parseJID j = some sender →
      (reconnectNextUser env s).events =
        [.onUserPresenceReceived { Presence.create with
            to_ := env.componentJID, from_ := sender, type := .Available },
         .nextUserTimerStart] ∧
      (reconnectNextUser env s).raised = false) ∧
    ((¬ ∃ storageBackend userInfo, env.m_storageBackend = some storageBackend ∧
        storageBackend.getUser j = some userInfo ∧
        storageBackend.getUserSetting userInfo.id "stay_connected" "1" = "1") →
      (reconnectNextUser env s).events = [.nextUserTimerStart] ∧
      (reconnectNextUser env s).raised = false) := by
  have hdrop : s.m_users.dropLast = front := by simp [hq]
  refine ⟨by rw [reconnectNextUser_state, hdrop], ?_, ?_⟩
  · intro sb info sender hsb hu hv hparse
    have hlast : s.m_users.getLast? = some j := by simp [hq]
    unfold reconnectNextUser
    simp [hlast, hmode, hsb, hu, hv, hparse]
  · intro hno
    have hlast : s.m_users.getLast? = some j := by simp [hq]
    unfold reconnectNextUser
    simp only [hlast, hmode, if_true]
    cases hsb : env.m_storageBackend with
    | none => simp
    | some sb =>
      cases hu : sb.getUser j with
      | none => simp [hu]
      | some info =>
        have hv : ¬ sb.getUserSetting info.id "stay_connected" "1" = "1" :=
          fun hv => hno ⟨sb, info, hsb, hu, hv⟩
        simp [hu, hv]

/-- The two regular cases of `reconnectNextUser_auto` on sample input: `a@x` has a
record and the setting, `b@x` has a record but not the setting. -/
theorem reconnectNextUser_auto_sample :
    (reconnectNextUser Sample.reconnecterEnvAuto ⟨["b@x", "a@x"], true⟩).events =
      [.onUserPresenceReceived { Presence.create with
          to_ := ⟨"", "gateway.x", ""⟩, from_ := ⟨"a", "x", ""⟩, type := .Available },
       .nextUserTimerStart] ∧
    (reconnectNextUser Sample.reconnecterEnvAuto ⟨["b@x"], true⟩).events =
      [.nextUserTimerStart] := by
  decide

end UsersReconnecter

end Transport
